import Mathlib

/-!
# Early boot of the KVM/x86 platform: `plat/kvm/x86/setup.c`

A shallow embedding of the multiboot command-line extraction
(`_mb_get_cmdline`), of the memory-map scan (`_mb_init_mem`) and of the entry
sequence (`_libkvmplat_entry`, `_libkvmplat_entry2`), followed by the
properties established about them.

Conventions.
* Machine words are natural numbers; every place where the C code computes on
  a 32-bit or 64-bit object reduces explicitly (`u32`, `u64`).  `size_t` and
  pointers are 64 bits wide (x86-64).
* The headers that declare `struct multiboot_info`, `multiboot_memory_map_t`,
  `MULTIBOOT_INFO_CMDLINE`, `UK_NAME`, `__PAGE_SIZE`, `__STACK_SIZE` and the
  linker symbol `_end` are not part of the translated file; their values are
  parameters (`Build`).
* Physical memory is seen through two read views (`Memory`): the bytes found
  from an address on, and the memory-map record found at an address.
* Calls of external functions, diagnostics and the halt of a failed assertion
  are recorded as a list of events (`Event`).
-/

namespace KvmSetup

/-! ## Machine words -/

/-- Value of a 32-bit unsigned object. -/
def u32 (x : Nat) : Nat := x % 2 ^ 32

/-- Value of a 64-bit unsigned object (`size_t`, `uint64_t`, pointers). -/
def u64 (x : Nat) : Nat := x % 2 ^ 64

/-- The `size_t` subtraction `a - b`, which wraps modulo `2 ^ 64`. -/
def sub64 (a b : Nat) : Nat := u64 (u64 a + (2 ^ 64 - u64 b))

/-! ## Constants of `setup.c` -/

/-- The constant `PLATFORM_MEM_START`, defined as `0x100000`. -/
def PLATFORM_MEM_START : Nat := 0x100000

/-- The constant `PLATFORM_MAX_MEM_ADDR`, defined as `0x40000000`. -/
def PLATFORM_MAX_MEM_ADDR : Nat := 0x40000000

/-- The constant `MAX_CMDLINE_SIZE`, defined as `8192`. -/
def MAX_CMDLINE_SIZE : Nat := 8192

/-- Modelled from the spec: the region-type tag `MULTIBOOT_MEMORY_AVAILABLE` of
`kvm-x86/multiboot_defs.h` (not among the translated sources); the record
layout of the external interface gives `Available = 1`. -/
def MULTIBOOT_MEMORY_AVAILABLE : Nat := 1

/-- Build-time values that `setup.c` takes from headers and from the linker. -/
structure Build where
  /-- the flag bit `MULTIBOOT_INFO_CMDLINE` -/
  MULTIBOOT_INFO_CMDLINE : Nat
  /-- the bytes of the string literal `UK_NAME` -/
  UK_NAME : List Nat
  /-- the page size `__PAGE_SIZE` -/
  __PAGE_SIZE : Nat
  /-- the boot stack size `__STACK_SIZE` -/
  __STACK_SIZE : Nat
  /-- the address of the linker symbol `_end` -/
  _end : Nat

/-! ## Boot handoff and memory -/

/-- The fields of `struct multiboot_info` read by `setup.c` (all 32 bits wide). -/
structure multiboot_info where
  flags : Nat
  cmdline : Nat
  mmap_length : Nat
  mmap_addr : Nat

/-- One `multiboot_memory_map_t` record: a 32-bit `size`, a 64-bit `addr`, a
64-bit `len` and a 32-bit `type`. -/
structure multiboot_mmap_entry where
  size : Nat
  addr : Nat
  len : Nat
  type : Nat
deriving DecidableEq, Repr

/-- Read views of physical memory.  `string_at a` lists the bytes stored from
address `a` on (bytes beyond the list read as `0`); `mmap_at a` is the record a
`multiboot_memory_map_t *` equal to `a` points to. -/
structure Memory where
  string_at : Nat → List Nat
  mmap_at : Nat → multiboot_mmap_entry

/-- A `char` buffer, byte by index from its first byte (index past the capacity
is memory behind the buffer). -/
abbrev Buffer := Nat → Nat

/-! ## C library and kernel macros used by `setup.c` -/

/-- Library `strlen`: number of bytes before the first `0` byte. -/
def strlen (s : List Nat) : Nat := (s.takeWhile (fun b => b != 0)).length

/-- Library `memcpy (dst, src, n)`: the first `n` bytes of `dst` become those of `src`. -/
def memcpy (dst : Buffer) (src : List Nat) (n : Nat) : Buffer :=
  fun i => if i < n then src.getD i 0 else dst i

/-- Library `strcpy (dst, src)`: copies the string and its terminating `0` byte. -/
def strcpy (dst : Buffer) (src : List Nat) : Buffer :=
  fun i => if i < strlen src then src.getD i 0 else if i = strlen src then 0 else dst i

/-- Store of one byte: `buf[idx] = v`. -/
def store (buf : Buffer) (idx v : Nat) : Buffer :=
  fun i => if i = idx then v else buf i

/-- Modelled from the spec: the macro `ALIGN_UP (v, a)` of `uk/essentials.h` (not
among the translated sources), the page-align-up of the scan, in its mask form
`((v) + (a) - 1) & ~((a) - 1)` on 64-bit words. -/
def ALIGN_UP (v a : Nat) : Nat :=
  sub64 (u64 (u64 v + u64 a)) 1 &&& (2 ^ 64 - 1 - sub64 a 1)

/-- Diagnostic written by `_mb_get_cmdline` when it truncates. -/
def MSG_TRUNCATED : String := "Command line too long, truncated\n"

/-- Diagnostic written by `_mb_get_cmdline` when no command line is passed. -/
def MSG_NO_CMDLINE : String := "No command line found\n"

/-! ## `_mb_get_cmdline` -/

/-- The function `_mb_get_cmdline (mi, cmdline, maxlen)`: returns the buffer after the call
and the messages passed to `uk_printd`, in order. -/
def _mb_get_cmdline (B : Build) (mem : Memory) (mi : multiboot_info)
    (cmdline : Buffer) (maxlen : Nat) : Buffer × List String :=
  if u32 mi.flags &&& B.MULTIBOOT_INFO_CMDLINE ≠ 0 then
    let mi_cmdline := mem.string_at (u64 (u32 mi.cmdline))
    let cmdline_len := strlen mi_cmdline
    let trunc := decide (cmdline_len ≥ maxlen)
    let cmdline_len := if trunc then sub64 maxlen 1 else cmdline_len
    let log := if trunc then [MSG_TRUNCATED] else []
    let cmdline := memcpy cmdline mi_cmdline cmdline_len
    (store cmdline (if cmdline_len ≤ sub64 maxlen 1 then cmdline_len else sub64 maxlen 1) 0,
     log)
  else
    (strcpy cmdline B.UK_NAME, [MSG_NO_CMDLINE])

/-! ## `_mb_init_mem` -/

/-- The three globals `_libkvmplat_heap_start`, `_libkvmplat_stack_top` and
`_libkvmplat_mem_end` (pointers, held as addresses). -/
structure Globals where
  _libkvmplat_heap_start : Nat
  _libkvmplat_stack_top : Nat
  _libkvmplat_mem_end : Nat
deriving DecidableEq, Repr

/-- Modelled from the spec: the macro `UK_ASSERT` of `uk/assert.h` (not among the
translated sources) halts the system when its condition is false.  A call of
`_mb_init_mem` therefore ends in one of three ways: it returns, or one of its
two `UK_ASSERT`s fails and the system halts there. -/
inductive Outcome where
  | returned
  | assert_offset_failed
  | assert_end_failed
deriving DecidableEq, Repr

/-- The pointer `m = (void *)(uintptr_t)(mi->mmap_addr + offset)`. -/
def mmap_ptr (mi : multiboot_info) (offset : Nat) : Nat :=
  u64 (u32 mi.mmap_addr + offset)

/-- The loop test `m->addr == PLATFORM_MEM_START && m->type == MULTIBOOT_MEMORY_AVAILABLE`. -/
def mmap_match (r : multiboot_mmap_entry) : Bool :=
  u64 r.addr == PLATFORM_MEM_START && u32 r.type == MULTIBOOT_MEMORY_AVAILABLE

/-- The loop step `offset += m->size + sizeof(m->size)`; the 32-bit `size` is
converted to `size_t` before the addition. -/
def mmap_step (r : multiboot_mmap_entry) (offset : Nat) : Nat :=
  u64 (offset + u64 (u32 r.size + 4))

/-- The `for` loop of `_mb_init_mem`, entered with the current `offset` and the
current value of the pointer `m`; returns their values when the loop is left. -/
def mmap_loop (mem : Memory) (mi : multiboot_info) (offset m : Nat) : Nat × Nat :=
  if h : offset < u32 mi.mmap_length then
    if mmap_match (mem.mmap_at (mmap_ptr mi offset)) then
      (offset, mmap_ptr mi offset)
    else
      mmap_loop mem mi (mmap_step (mem.mmap_at (mmap_ptr mi offset)) offset) (mmap_ptr mi offset)
  else
    (offset, m)
termination_by u32 mi.mmap_length - offset
decreasing_by
  simp only [mmap_step, u32, u64] at *
  omega

/-- The function `_mb_init_mem (mi)`, run on the globals `g`.  The pointer `m` is
uninitialised before the loop; `m0` is the value it happens to hold. -/
def _mb_init_mem (B : Build) (mem : Memory) (mi : multiboot_info) (m0 : Nat)
    (g : Globals) : Outcome × Globals :=
  let (offset, m) := mmap_loop mem mi 0 m0
  if ¬ offset < u32 mi.mmap_length then (Outcome.assert_offset_failed, g)
  else
    let max_addr := u64 (u64 (mem.mmap_at m).addr + u64 (mem.mmap_at m).len)
    let max_addr := if max_addr > PLATFORM_MAX_MEM_ADDR then PLATFORM_MAX_MEM_ADDR else max_addr
    if ¬ u64 B._end ≤ max_addr then (Outcome.assert_end_failed, g)
    else
      (Outcome.returned,
       { _libkvmplat_heap_start := ALIGN_UP (u64 B._end) B.__PAGE_SIZE
         _libkvmplat_mem_end := max_addr
         _libkvmplat_stack_top := sub64 max_addr B.__STACK_SIZE })

/-- The offsets produced by the header of the `for` loop alone (start at
`offset`, continue while below `mi->mmap_length`, advance by the visited
record's `size` plus four), without the `break`. -/
def mmap_walk (mem : Memory) (mi : multiboot_info) (offset : Nat) : List Nat :=
  if h : offset < u32 mi.mmap_length then
    offset :: mmap_walk mem mi (mmap_step (mem.mmap_at (mmap_ptr mi offset)) offset)
  else
    []
termination_by u32 mi.mmap_length - offset
decreasing_by
  simp only [mmap_step, u32, u64] at *
  omega

/-- The record the walk reads at `offset`. -/
def mmap_record (mem : Memory) (mi : multiboot_info) (offset : Nat) : multiboot_mmap_entry :=
  mem.mmap_at (mmap_ptr mi offset)

/-- The value `max_addr` that `_mb_init_mem` derives from the record `r`: the
64-bit sum `r.addr + r.len`, replaced by `PLATFORM_MAX_MEM_ADDR` when above it. -/
def candidate_end (r : multiboot_mmap_entry) : Nat :=
  if u64 (u64 r.addr + u64 r.len) > PLATFORM_MAX_MEM_ADDR then PLATFORM_MAX_MEM_ADDR
  else u64 (u64 r.addr + u64 r.len)

/-! ## Auxiliary notions used in the statements -/

/-- The string `mi_cmdline` that `_mb_get_cmdline` reads when the flag is set. -/
def cmdline_src (mem : Memory) (mi : multiboot_info) : List Nat :=
  mem.string_at (u64 (u32 mi.cmdline))

/-- Offset of the first record of the walk from `offset` that passes the loop
test, if there is one. -/
def first_match (mem : Memory) (mi : multiboot_info) (offset : Nat) : Option Nat :=
  (mmap_walk mem mi offset).find? (fun o => mmap_match (mmap_record mem mi o))

/-- The layout `_mb_init_mem` stores when it succeeds on the record `r`. -/
def layout_of (B : Build) (r : multiboot_mmap_entry) : Globals :=
  { _libkvmplat_heap_start := ALIGN_UP (u64 B._end) B.__PAGE_SIZE
    _libkvmplat_mem_end := candidate_end r
    _libkvmplat_stack_top := sub64 (candidate_end r) B.__STACK_SIZE }

/-! ## Concrete inputs -/

/-- A build with the usual x86-64 values: command-line flag bit `0x4`, image
name `Unikraft`, 4 KiB pages, a 64 KiB boot stack, and the image ending at
`image_end`. -/
def kvm_build (image_end : Nat) : Build :=
  { MULTIBOOT_INFO_CMDLINE := 4
    UK_NAME := [85, 110, 105, 107, 114, 97, 102, 116]
    __PAGE_SIZE := 0x1000
    __STACK_SIZE := 0x10000
    _end := image_end }

/-- Memory holding the string `s` at address `a`. -/
def mem_cmdline (a : Nat) (s : List Nat) : Memory :=
  { string_at := fun p => if p = a then s else []
    mmap_at := fun _ => ⟨0, 0, 0, 0⟩ }

/-- Memory holding the record `r` at address `a`. -/
def mem_one (a : Nat) (r : multiboot_mmap_entry) : Memory :=
  { string_at := fun _ => []
    mmap_at := fun p => if p = a then r else ⟨0, 0, 0, 0⟩ }

/-- Memory holding two 24-byte records `r0`, `r1` back to back from address `a`. -/
def mem_two (a : Nat) (r0 r1 : multiboot_mmap_entry) : Memory :=
  { string_at := fun _ => []
    mmap_at := fun p => if p = a then r0 else if p = a + 24 then r1 else ⟨0, 0, 0, 0⟩ }

/-- A handoff with the given flags and command-line address and no memory map. -/
def mi_cmdline (flags a : Nat) : multiboot_info :=
  { flags := flags, cmdline := a, mmap_length := 0, mmap_addr := 0 }

/-- A handoff whose memory map is `len` bytes at address `a` (memory-map flag set). -/
def mi_map (a len : Nat) : multiboot_info :=
  { flags := 0x40, cmdline := 0, mmap_length := len, mmap_addr := a }

/-- A buffer whose every byte is `0xFF`. -/
def buf_ff : Buffer := fun _ => 0xFF

/-- The bytes of the string `boot=verbose`. -/
def boot_verbose : List Nat := [98, 111, 111, 116, 61, 118, 101, 114, 98, 111, 115, 101]

/-- Globals before the scan: all three pointers are null. -/
def g_null : Globals := ⟨0, 0, 0⟩

/-- A two-record map with no usable region at `PLATFORM_MEM_START`: low memory
at base `0`, and a reserved region at `0x100000`. -/
def mem_reserved : Memory :=
  mem_two 0x9000 ⟨20, 0, 0x9FC00, 1⟩ ⟨20, 0x100000, 0x7EE0000, 2⟩

/-- A two-record map: low memory at base `0`, then 126 MiB available at `0x100000`. -/
def mem_qemu : Memory :=
  mem_two 0x9000 ⟨20, 0, 0x9FC00, 1⟩ ⟨20, 0x100000, 0x7EE0000, 1⟩

/-- Scenario A of the specification: one Available record, base `0x100000`,
length `0x3F000000`. -/
def mem_scenario_a : Memory := mem_one 0x9000 ⟨20, 0x100000, 0x3F000000, 1⟩

/-- One Available record of 1 MiB at `0x100000`. -/
def mem_small : Memory := mem_one 0x9000 ⟨20, 0x100000, 0x100000, 1⟩

/-- One Available record at `0x100000` whose length is not a multiple of the
page size. -/
def mem_odd : Memory := mem_one 0x9000 ⟨20, 0x100000, 0x100800, 1⟩

/-- One Available record at `0x100000` whose end `addr + len` is `2 ^ 64 + 0x90000`. -/
def mem_wrap : Memory := mem_one 0x9000 ⟨20, 0x100000, 0xFFFFFFFFFFF90000, 1⟩

/-- One Available record at `0x100000` reaching to the top of the 64-bit address
space: `addr + len` is `2 ^ 64`. -/
def mem_top : Memory := mem_one 0x9000 ⟨20, 0x100000, 0xFFFFFFFFFFF00000, 1⟩

/-! ## Instrumented loop -/

/-- The offsets at which the body of the `for` loop of `_mb_init_mem` runs, in
order: the loop of `mmap_loop`, recording each offset whose record it reads. -/
def mmap_trace (mem : Memory) (mi : multiboot_info) (offset : Nat) : List Nat :=
  if h : offset < u32 mi.mmap_length then
    if mmap_match (mem.mmap_at (mmap_ptr mi offset)) then
      [offset]
    else
      offset :: mmap_trace mem mi (mmap_step (mem.mmap_at (mmap_ptr mi offset)) offset)
  else
    []
termination_by u32 mi.mmap_length - offset
decreasing_by
  simp only [mmap_step, u32, u64] at *
  omega

/-- The `for` loop of `_mb_init_mem` allowed to run its body at most `n` times:
`none` when the body would have to run once more. -/
def mmap_loop_bounded (mem : Memory) (mi : multiboot_info) :
    Nat → Nat → Nat → Option (Nat × Nat)
  | n, offset, m =>
    if offset < u32 mi.mmap_length then
      match n with
      | 0 => none
      | n + 1 =>
        if mmap_match (mem.mmap_at (mmap_ptr mi offset)) then
          some (offset, mmap_ptr mi offset)
        else
          mmap_loop_bounded mem mi n
            (mmap_step (mem.mmap_at (mmap_ptr mi offset)) offset) (mmap_ptr mi offset)
    else
      some (offset, m)

/-- Memory holding three 24-byte records back to back from address `a`. -/
def mem_three (a : Nat) (r0 r1 r2 : multiboot_mmap_entry) : Memory :=
  { string_at := fun _ => []
    mmap_at := fun p =>
      if p = a then r0 else if p = a + 24 then r1 else if p = a + 48 then r2
      else ⟨0, 0, 0, 0⟩ }

/-- Low memory, 126 MiB available at `0x100000`, and a second Available record
at `0x100000` of 16 MiB. -/
def mem_twice : Memory :=
  mem_three 0x9000 ⟨20, 0, 0x9FC00, 1⟩ ⟨20, 0x100000, 0x7EE0000, 1⟩
    ⟨20, 0x100000, 0x1000000, 1⟩

/-- As `mem_twice`, with the third record of 48 MiB instead. -/
def mem_twice_other : Memory :=
  mem_three 0x9000 ⟨20, 0, 0x9FC00, 1⟩ ⟨20, 0x100000, 0x7EE0000, 1⟩
    ⟨20, 0x100000, 0x3000000, 1⟩

/-! ## `_libkvmplat_entry` -/

/-- The functions passed to `_libkvmplat_newstack` as continuation. -/
inductive Tramp where
  | _libkvmplat_entry2
deriving DecidableEq, Repr

/-- What `_libkvmplat_entry` does that is visible outside `setup.c`, in order:
calls of external functions, diagnostics, and the halt of a failed `UK_ASSERT`. -/
inductive Event where
  /-- the call `_libkvmplat_init_console ()` -/
  | init_console
  /-- the call `_init_cpufeatures ()` (`fninit`, `ldmxcsr`) -/
  | init_cpufeatures
  /-- the call `cpu_init ()` -/
  | cpu_init
  /-- a call `uk_printd (DLVL_INFO, fmt, arg)` -/
  | printd (fmt : String) (arg : Option Nat)
  /-- the call `_libkvmplat_newstack (stack_start, tramp, arg)` -/
  | newstack (stack_start : Nat) (tramp : Tramp) (arg : Nat)
  /-- the call `ukplat_entry_argp (arg0, argb, argb_len)` -/
  | ukplat_entry_argp (arg0 : Nat) (argb : Buffer) (argb_len : Nat)
  /-- the system halts at a failed `UK_ASSERT` -/
  | halt (o : Outcome)

/-- Whether the event is the stack switch. -/
def Event.is_newstack : Event → Bool
  | Event.newstack _ _ _ => true
  | _ => false

/-- Whether the event is the call of the platform-independent entry point. -/
def Event.is_ukplat_entry : Event → Bool
  | Event.ukplat_entry_argp _ _ _ => true
  | _ => false

/-- The function `_libkvmplat_entry2 (arg)`: calls
`ukplat_entry_argp (NULL, cmdline, sizeof (cmdline))` on the static buffer. -/
def _libkvmplat_entry2 (cmdline : Buffer) (_arg : Nat) : List Event :=
  [Event.ukplat_entry_argp 0 cmdline MAX_CMDLINE_SIZE]

/-- Modelled from the spec: the external `_libkvmplat_newstack (stack_start,
tramp, arg)`, which is declared but not defined in `setup.c`; it moves execution
onto the stack at `stack_start`, calls the continuation with `arg` there and
never returns. -/
def _libkvmplat_newstack (cmdline : Buffer) (stack_start : Nat) (tramp : Tramp)
    (arg : Nat) : List Event :=
  Event.newstack stack_start tramp arg ::
    (match tramp with
     | Tramp._libkvmplat_entry2 => _libkvmplat_entry2 cmdline arg)

/-- The function `_libkvmplat_entry (arg)`, where `arg` points to the handoff
`mi`; `cmdline` and `g` are the static buffer and the layout globals at entry.
Returns the events in order. -/
def _libkvmplat_entry (B : Build) (mem : Memory) (arg : Nat) (mi : multiboot_info)
    (m0 : Nat) (cmdline : Buffer) (g : Globals) : List Event :=
  let ev := [Event.init_console, Event.init_cpufeatures, Event.cpu_init,
    Event.printd "Entering from KVM (x86)...\n" none,
    Event.printd "     multiboot: %p\n" (some arg)]
  let (cmdline, log) := _mb_get_cmdline B mem mi cmdline MAX_CMDLINE_SIZE
  let ev := ev ++ log.map (fun s => Event.printd s none)
  match _mb_init_mem B mem mi m0 g with
  | (Outcome.returned, g) =>
    ev ++ [Event.printd "    heap start: %p\n" (some g._libkvmplat_heap_start),
        Event.printd "     stack top: %p\n" (some g._libkvmplat_stack_top),
        Event.printd "Switch from bootstrap stack to stack @%p\n"
          (some g._libkvmplat_mem_end)] ++
      _libkvmplat_newstack cmdline (u64 g._libkvmplat_mem_end) Tramp._libkvmplat_entry2 0
  | (o, _) => ev ++ [Event.halt o]

/-- The events of `_libkvmplat_entry` up to and including the extraction of the
command line. -/
def entry_preamble (B : Build) (mem : Memory) (arg : Nat) (mi : multiboot_info)
    (cmdline : Buffer) : List Event :=
  [Event.init_console, Event.init_cpufeatures, Event.cpu_init,
    Event.printd "Entering from KVM (x86)...\n" none,
    Event.printd "     multiboot: %p\n" (some arg)] ++
  (_mb_get_cmdline B mem mi cmdline MAX_CMDLINE_SIZE).2.map (fun s => Event.printd s none)

/-! ## Write set of `_mb_get_cmdline` -/

/-- Whether `_mb_get_cmdline (mi, cmdline, maxlen)` stores to `cmdline[i]`: with
the flag set, `memcpy` stores to the indices below the copied length and the
termination stores to one index; otherwise `strcpy` stores the name and its
terminator. -/
def cmdline_written (B : Build) (mem : Memory) (mi : multiboot_info) (maxlen i : Nat) :
    Bool :=
  if u32 mi.flags &&& B.MULTIBOOT_INFO_CMDLINE ≠ 0 then
    let mi_cmdline := mem.string_at (u64 (u32 mi.cmdline))
    let cmdline_len := strlen mi_cmdline
    let cmdline_len := if cmdline_len ≥ maxlen then sub64 maxlen 1 else cmdline_len
    decide (i < cmdline_len) ||
      decide (i = if cmdline_len ≤ sub64 maxlen 1 then cmdline_len else sub64 maxlen 1)
  else
    decide (i ≤ strlen B.UK_NAME)

/-! ## Helper lemmas: machine words -/

theorem sub64_one (n : Nat) (h0 : 0 < n) (h : n < 2 ^ 64) : sub64 n 1 = n - 1 := by
  simp only [sub64, u64]
  omega

theorem sub64_of_le (a b : Nat) (ha : a < 2 ^ 64) (hb : u64 b ≤ a) :
    sub64 a b = a - u64 b := by
  simp only [sub64, u64] at *
  omega

theorem and_high_mask (n k x : Nat) (hk : k ≤ n) (hx : x < 2 ^ n) :
    x &&& (2 ^ n - 2 ^ k) = x / 2 ^ k * 2 ^ k := by
  apply Nat.eq_of_testBit_eq
  intro i
  have hpos : 0 < 2 ^ k := Nat.pow_pos (by norm_num)
  have h1 : 2 ^ n - 2 ^ k = 2 ^ n - ((2 ^ k - 1) + 1) := by omega
  have h2 : 2 ^ k - 1 < 2 ^ n := by
    have : 2 ^ k ≤ 2 ^ n := Nat.pow_le_pow_right (by norm_num) hk
    omega
  rw [Nat.testBit_and, h1, Nat.testBit_two_pow_sub_succ h2, Nat.testBit_two_pow_sub_one,
    Nat.mul_comm, Nat.testBit_mul_pow_two, ← Nat.shiftRight_eq_div_pow, Nat.testBit_shiftRight]
  by_cases hik : k ≤ i
  · have hki : k + (i - k) = i := by omega
    rw [hki]
    by_cases hin : i < n
    · have : ¬ i < k := by omega
      simp [hik, hin, this]
    · have hf : x.testBit i = false := by
        apply Nat.testBit_lt_two_pow
        calc x < 2 ^ n := hx
          _ ≤ 2 ^ i := Nat.pow_le_pow_right (by norm_num) (by omega)
      simp [hf]
  · have : i < k := by omega
    simp [hik, this]

theorem ALIGN_UP_pow_two (v k : Nat) (hk : k < 64) :
    ALIGN_UP v (2 ^ k) = sub64 (u64 (u64 v + 2 ^ k)) 1 / 2 ^ k * 2 ^ k := by
  have hlt : 2 ^ k < 2 ^ 64 := Nat.pow_lt_pow_right (by norm_num) hk
  have hpos : 0 < 2 ^ k := Nat.pow_pos (by norm_num)
  have ha : u64 (2 ^ k) = 2 ^ k := by simp only [u64]; omega
  have hs : sub64 (2 ^ k) 1 = 2 ^ k - 1 := sub64_one _ hpos hlt
  have hm : 2 ^ 64 - 1 - (2 ^ k - 1) = 2 ^ 64 - 2 ^ k := by omega
  have hx : sub64 (u64 (u64 v + 2 ^ k)) 1 < 2 ^ 64 := by
    simp only [sub64, u64]; omega
  rw [ALIGN_UP, ha, hs, hm]
  exact and_high_mask 64 k _ (by omega) hx

theorem ALIGN_UP_dvd (v k : Nat) (hk : k < 64) : 2 ^ k ∣ ALIGN_UP v (2 ^ k) := by
  rw [ALIGN_UP_pow_two v k hk]
  exact Dvd.intro_left _ rfl

/-! ## Helper lemmas: strings and `_mb_get_cmdline` -/

theorem strlen_replicate (n b : Nat) (hb : b ≠ 0) : strlen (List.replicate n b) = n := by
  induction n with
  | zero => rfl
  | succ n ih =>
    simp only [strlen] at ih
    simp [strlen, List.replicate_succ, List.takeWhile_cons, hb, ih]

theorem get_cmdline_short (B : Build) (mem : Memory) (mi : multiboot_info) (cmdline : Buffer)
    (maxlen : Nat) (hmax : maxlen < 2 ^ 64)
    (hflag : u32 mi.flags &&& B.MULTIBOOT_INFO_CMDLINE ≠ 0)
    (hlen : strlen (cmdline_src mem mi) < maxlen) :
    _mb_get_cmdline B mem mi cmdline maxlen =
      (store (memcpy cmdline (cmdline_src mem mi) (strlen (cmdline_src mem mi)))
        (strlen (cmdline_src mem mi)) 0, []) := by
  have h1 : sub64 maxlen 1 = maxlen - 1 := sub64_one maxlen (by omega) hmax
  have h2 : ¬ strlen (cmdline_src mem mi) ≥ maxlen := by omega
  have h3 : strlen (cmdline_src mem mi) ≤ maxlen - 1 := by omega
  simp only [cmdline_src] at h1 h2 h3 ⊢
  simp [_mb_get_cmdline, hflag, h1, h2, h3]

theorem get_cmdline_long (B : Build) (mem : Memory) (mi : multiboot_info) (cmdline : Buffer)
    (maxlen : Nat)
    (hflag : u32 mi.flags &&& B.MULTIBOOT_INFO_CMDLINE ≠ 0)
    (hlen : maxlen ≤ strlen (cmdline_src mem mi)) :
    _mb_get_cmdline B mem mi cmdline maxlen =
      (store (memcpy cmdline (cmdline_src mem mi) (sub64 maxlen 1)) (sub64 maxlen 1) 0,
        [MSG_TRUNCATED]) := by
  simp only [cmdline_src] at hlen ⊢
  simp [_mb_get_cmdline, hflag, hlen]

theorem get_cmdline_default (B : Build) (mem : Memory) (mi : multiboot_info) (cmdline : Buffer)
    (maxlen : Nat)
    (hflag : u32 mi.flags &&& B.MULTIBOOT_INFO_CMDLINE = 0) :
    _mb_get_cmdline B mem mi cmdline maxlen = (strcpy cmdline B.UK_NAME, [MSG_NO_CMDLINE]) := by
  simp [_mb_get_cmdline, hflag]

/-! ## Helper lemmas: the record walk and `_mb_init_mem` -/

theorem mmap_loop_of_first_match (mem : Memory) (mi : multiboot_info) (offset m o : Nat)
    (h : first_match mem mi offset = some o) :
    mmap_loop mem mi offset m = (o, mmap_ptr mi o) := by
  induction offset, m using mmap_loop.induct mem mi with
  | case1 offset m hlt hm =>
    rw [mmap_loop]
    rw [first_match, mmap_walk] at h
    simp [hlt, mmap_record, hm] at h
    subst h
    simp [hlt, hm]
  | case2 offset m hlt hm ih =>
    rw [mmap_loop]
    rw [first_match, mmap_walk] at h
    simp [hlt, mmap_record, hm] at h
    simp only [hlt, hm, dite_true]
    exact ih h
  | case3 offset m hlt =>
    rw [first_match, mmap_walk] at h
    simp [hlt] at h

theorem mmap_loop_of_no_match (mem : Memory) (mi : multiboot_info) (offset m : Nat)
    (h : ∀ o ∈ mmap_walk mem mi offset, mmap_match (mmap_record mem mi o) = false) :
    ¬ (mmap_loop mem mi offset m).1 < u32 mi.mmap_length := by
  induction offset, m using mmap_loop.induct mem mi with
  | case1 offset m hlt hm =>
    rw [mmap_walk] at h
    simp [hlt, mmap_record, hm] at h
  | case2 offset m hlt hm ih =>
    rw [mmap_loop]
    rw [mmap_walk] at h
    simp [hlt, mmap_record, hm] at h
    simp only [hlt, hm, dite_true]
    exact ih h
  | case3 offset m hlt =>
    rw [mmap_loop]
    simp [hlt]

theorem first_match_some_of_exists (mem : Memory) (mi : multiboot_info) (offset : Nat)
    (h : ∃ o ∈ mmap_walk mem mi offset, mmap_match (mmap_record mem mi o) = true) :
    ∃ o, first_match mem mi offset = some o := by
  obtain ⟨o, ho, hm⟩ := h
  cases hf : first_match mem mi offset with
  | some o' => exact ⟨o', rfl⟩
  | none =>
    rw [first_match, List.find?_eq_none] at hf
    exact absurd hm (by simpa using hf o ho)

theorem first_match_spec (mem : Memory) (mi : multiboot_info) (offset o : Nat)
    (h : first_match mem mi offset = some o) :
    o ∈ mmap_walk mem mi offset ∧ mmap_match (mmap_record mem mi o) = true := by
  rw [first_match] at h
  exact ⟨List.mem_of_find?_eq_some h, by simpa using List.find?_some h⟩

theorem mem_mmap_walk_lt (mem : Memory) (mi : multiboot_info) (offset o : Nat)
    (h : o ∈ mmap_walk mem mi offset) : o < u32 mi.mmap_length := by
  induction offset using mmap_walk.induct mem mi with
  | case1 x hlt ih =>
    rw [mmap_walk] at h
    simp [hlt] at h
    rcases h with h | h
    · subst h; exact hlt
    · exact ih h
  | case2 x hlt =>
    rw [mmap_walk] at h
    simp [hlt] at h

theorem init_mem_of_no_match (B : Build) (mem : Memory) (mi : multiboot_info) (m0 : Nat)
    (g : Globals)
    (h : ∀ o ∈ mmap_walk mem mi 0, mmap_match (mmap_record mem mi o) = false) :
    _mb_init_mem B mem mi m0 g = (Outcome.assert_offset_failed, g) := by
  have hl := mmap_loop_of_no_match mem mi 0 m0 h
  simp only [_mb_init_mem]
  rw [if_pos hl]

theorem init_mem_of_first_match (B : Build) (mem : Memory) (mi : multiboot_info) (m0 o : Nat)
    (g : Globals) (h : first_match mem mi 0 = some o) :
    _mb_init_mem B mem mi m0 g =
      if u64 B._end ≤ candidate_end (mmap_record mem mi o) then
        (Outcome.returned, layout_of B (mmap_record mem mi o))
      else (Outcome.assert_end_failed, g) := by
  have hl := mmap_loop_of_first_match mem mi 0 m0 o h
  have hlt := mem_mmap_walk_lt mem mi 0 o (first_match_spec mem mi 0 o h).1
  simp only [_mb_init_mem, hl]
  simp only [hlt, not_true_eq_false, if_false, mmap_record, candidate_end, layout_of]
  split <;> simp only [← not_lt, ite_not, gt_iff_lt]

theorem first_match_none_iff (mem : Memory) (mi : multiboot_info) (offset : Nat) :
    first_match mem mi offset = none ↔
      ∀ o ∈ mmap_walk mem mi offset, mmap_match (mmap_record mem mi o) = false := by
  simp [first_match, List.find?_eq_none]

theorem candidate_end_le (r : multiboot_mmap_entry) : candidate_end r ≤ PLATFORM_MAX_MEM_ADDR := by
  simp only [candidate_end]
  split <;> omega

theorem candidate_end_eq_min (r : multiboot_mmap_entry)
    (h : u64 r.addr + u64 r.len < 2 ^ 64) :
    candidate_end r = min (u64 r.addr + u64 r.len) PLATFORM_MAX_MEM_ADDR := by
  have : u64 (u64 r.addr + u64 r.len) = u64 r.addr + u64 r.len := by
    simp only [u64] at *
    omega
  simp only [candidate_end, this]
  split <;> omega

theorem first_match_head (mem : Memory) (mi : multiboot_info)
    (h0 : 0 < u32 mi.mmap_length) (hm : mmap_match (mmap_record mem mi 0) = true) :
    first_match mem mi 0 = some 0 := by
  rw [first_match, mmap_walk]
  simp [h0, hm]

theorem mmap_walk_empty (mem : Memory) (mi : multiboot_info) (h : u32 mi.mmap_length = 0) :
    mmap_walk mem mi 0 = [] := by
  rw [mmap_walk]
  simp [h]

theorem init_mem_returned (B : Build) (mem : Memory) (mi : multiboot_info) (m0 : Nat)
    (g : Globals) (hs : (_mb_init_mem B mem mi m0 g).1 = Outcome.returned) :
    ∃ o, first_match mem mi 0 = some o ∧
      u64 B._end ≤ candidate_end (mmap_record mem mi o) ∧
      _mb_init_mem B mem mi m0 g = (Outcome.returned, layout_of B (mmap_record mem mi o)) := by
  cases hf : first_match mem mi 0 with
  | none =>
    rw [init_mem_of_no_match B mem mi m0 g ((first_match_none_iff mem mi 0).mp hf)] at hs
    simp at hs
  | some o =>
    have he := init_mem_of_first_match B mem mi m0 o g hf
    by_cases hc : u64 B._end ≤ candidate_end (mmap_record mem mi o)
    · rw [if_pos hc] at he
      exact ⟨o, rfl, hc, he⟩
    · rw [if_neg hc] at he
      rw [he] at hs
      simp at hs

theorem candidate_end_no_wrap (B : Build) (r : multiboot_mmap_entry)
    (hm : mmap_match r = true) (hend : PLATFORM_MEM_START ≤ u64 B._end)
    (hc : u64 B._end ≤ candidate_end r) : u64 r.addr + u64 r.len < 2 ^ 64 := by
  have ha : u64 r.addr = PLATFORM_MEM_START := by
    simp only [mmap_match, Bool.and_eq_true, beq_iff_eq] at hm
    exact hm.1
  have hle : candidate_end r ≤ u64 (u64 r.addr + u64 r.len) := by
    simp only [candidate_end]
    split <;> omega
  have hl : u64 r.len < 2 ^ 64 := by
    simp only [u64]
    omega
  by_contra hw
  have hw2 : u64 (u64 r.addr + u64 r.len) < PLATFORM_MEM_START := by
    rw [ha] at hw ⊢
    simp only [u64, PLATFORM_MEM_START] at *
    omega
  omega

theorem walk_mem_reserved : mmap_walk mem_reserved (mi_map 0x9000 48) 0 = [0, 24] := by
  simp [mmap_walk, mem_reserved, mem_two, mi_map, mmap_step, mmap_ptr, u32, u64]

theorem walk_mem_qemu : mmap_walk mem_qemu (mi_map 0x9000 48) 0 = [0, 24] := by
  simp [mmap_walk, mem_qemu, mem_two, mi_map, mmap_step, mmap_ptr, u32, u64]

theorem first_match_mem_qemu : first_match mem_qemu (mi_map 0x9000 48) 0 = some 24 := by
  rw [first_match, walk_mem_qemu]
  decide

theorem init_mem_one (B : Build) (a : Nat) (r : multiboot_mmap_entry) (m0 : Nat) (g : Globals)
    (ha : a < 2 ^ 32) (hm : mmap_match r = true) :
    _mb_init_mem B (mem_one a r) (mi_map a 24) m0 g =
      if u64 B._end ≤ candidate_end r then (Outcome.returned, layout_of B r)
      else (Outcome.assert_end_failed, g) := by
  have hp : mmap_ptr (mi_map a 24) 0 = a := by
    simp only [mmap_ptr, mi_map, u32, u64]
    omega
  have hr : mmap_record (mem_one a r) (mi_map a 24) 0 = r := by
    simp [mmap_record, hp, mem_one]
  have hf : first_match (mem_one a r) (mi_map a 24) 0 = some 0 :=
    first_match_head _ _ (by simp [mi_map, u32]) (by rw [hr]; exact hm)
  rw [init_mem_of_first_match B _ _ m0 0 g hf, hr]

theorem sub64_dvd (p a b : Nat) (hp : p ∣ 2 ^ 64) (ha : p ∣ u64 a) (hb : p ∣ u64 b) :
    p ∣ sub64 a b := by
  have hb2 : p ∣ 2 ^ 64 - u64 b := Nat.dvd_sub' hp hb
  rw [sub64, u64, Nat.dvd_mod_iff hp]
  exact Nat.dvd_add ha hb2

theorem ALIGN_UP_exact (v k : Nat) (hk : k < 64) (hv : u64 v + 2 ^ k < 2 ^ 64) :
    ALIGN_UP v (2 ^ k) = (u64 v + 2 ^ k - 1) / 2 ^ k * 2 ^ k := by
  have hpos : 0 < 2 ^ k := Nat.pow_pos (by norm_num)
  rw [ALIGN_UP_pow_two v k hk]
  have h1 : sub64 (u64 (u64 v + 2 ^ k)) 1 = u64 v + 2 ^ k - 1 := by
    simp only [sub64, u64] at *
    omega
  rw [h1]

theorem round_up_bounds (v p : Nat) (hp : 0 < p) :
    v ≤ (v + p - 1) / p * p ∧ (v + p - 1) / p * p < v + p := by
  have h1 := Nat.div_add_mod (v + p - 1) p
  have h2 := Nat.mod_lt (v + p - 1) hp
  have h3 : (v + p - 1) / p * p = p * ((v + p - 1) / p) := Nat.mul_comm _ _
  omega

theorem round_up_least (v p m : Nat) (hp : 0 < p) (hm : p ∣ m) (hv : v ≤ m) :
    (v + p - 1) / p * p ≤ m := by
  obtain ⟨c, rfl⟩ := hm
  rw [Nat.mul_comm p c]
  apply Nat.mul_le_mul_right
  have h1 : v + p - 1 < p * (c + 1) := by
    rw [Nat.mul_add, Nat.mul_one]
    omega
  have h2 : (v + p - 1) / p < c + 1 := Nat.div_lt_of_lt_mul h1
  omega

theorem mmap_step_exact (r : multiboot_mmap_entry) (offset : Nat) (h : offset < 2 ^ 32) :
    mmap_step r offset = offset + (u32 r.size + 4) := by
  simp only [mmap_step, u32, u64]
  omega

theorem mmap_walk_cons (mem : Memory) (mi : multiboot_info) (offset : Nat)
    (h : offset < u32 mi.mmap_length) :
    mmap_walk mem mi offset =
      offset :: mmap_walk mem mi (offset + (u32 (mmap_record mem mi offset).size + 4)) := by
  have hlt : offset < 2 ^ 32 := by
    simp only [u32] at h
    omega
  rw [mmap_walk, dif_pos h, mmap_step_exact _ _ hlt, mmap_record]

theorem mmap_walk_nil (mem : Memory) (mi : multiboot_info) (offset : Nat)
    (h : ¬ offset < u32 mi.mmap_length) : mmap_walk mem mi offset = [] := by
  rw [mmap_walk, dif_neg h]

theorem mmap_trace_eq (mem : Memory) (mi : multiboot_info) (offset : Nat) :
    mmap_trace mem mi offset =
      (mmap_walk mem mi offset).takeWhile (fun p => !mmap_match (mmap_record mem mi p)) ++
        (first_match mem mi offset).toList := by
  induction offset using mmap_trace.induct mem mi with
  | case1 x hlt hm =>
    rw [mmap_trace, first_match, mmap_walk]
    simp [hlt, hm, mmap_record]
  | case2 x hlt hm ih =>
    rw [mmap_trace, first_match, mmap_walk]
    rw [first_match] at ih
    simp [hlt, hm, mmap_record, ih]
  | case3 x hlt =>
    rw [mmap_trace, first_match, mmap_walk]
    simp [hlt]

theorem mmap_trace_length_le (mem : Memory) (mi : multiboot_info) (offset : Nat) :
    (mmap_trace mem mi offset).length ≤ (u32 mi.mmap_length - offset + 3) / 4 := by
  induction offset using mmap_trace.induct mem mi with
  | case1 x hlt hm =>
    rw [mmap_trace]
    simp only [hlt, hm, dite_true, if_true, List.length_singleton]
    omega
  | case2 x hlt hm ih =>
    rw [mmap_trace]
    simp only [hlt, hm, dite_true, Bool.false_eq_true, if_false, List.length_cons]
    have hx : x < 2 ^ 32 := by
      simp only [u32] at hlt
      omega
    have hs := mmap_step_exact (mem.mmap_at (mmap_ptr mi x)) x hx
    omega
  | case3 x hlt =>
    rw [mmap_trace]
    simp [hlt]

theorem mmap_walk_length_le (mem : Memory) (mi : multiboot_info) (offset : Nat) :
    (mmap_walk mem mi offset).length ≤ (u32 mi.mmap_length - offset + 3) / 4 := by
  induction offset using mmap_walk.induct mem mi with
  | case1 x hlt ih =>
    rw [mmap_walk]
    simp only [hlt, dite_true, List.length_cons]
    have hx : x < 2 ^ 32 := by
      simp only [u32] at hlt
      omega
    have hs := mmap_step_exact (mem.mmap_at (mmap_ptr mi x)) x hx
    omega
  | case2 x hlt =>
    rw [mmap_walk]
    simp [hlt]

theorem mmap_loop_bounded_eq (mem : Memory) (mi : multiboot_info) (n offset m : Nat)
    (h : (u32 mi.mmap_length - offset + 3) / 4 ≤ n) :
    mmap_loop_bounded mem mi n offset m = some (mmap_loop mem mi offset m) := by
  induction n generalizing offset m with
  | zero =>
    have hge : ¬ offset < u32 mi.mmap_length := by omega
    rw [mmap_loop_bounded, mmap_loop]
    simp [hge]
  | succ n ih =>
    rw [mmap_loop_bounded, mmap_loop]
    by_cases hlt : offset < u32 mi.mmap_length
    · by_cases hm : mmap_match (mem.mmap_at (mmap_ptr mi offset)) = true
      · simp [hlt, hm]
      · have hx : offset < 2 ^ 32 := by
          simp only [u32] at hlt
          omega
        have hs := mmap_step_exact (mem.mmap_at (mmap_ptr mi offset)) offset hx
        simp only [hlt, hm, if_true, dite_true, if_false]
        apply ih
        omega
    · simp [hlt]

theorem first_match_congr_trace (mem mem' : Memory) (mi : multiboot_info) (offset o : Nat)
    (hf : first_match mem mi offset = some o)
    (hag : ∀ p ∈ mmap_trace mem mi offset,
      mem'.mmap_at (mmap_ptr mi p) = mem.mmap_at (mmap_ptr mi p)) :
    first_match mem' mi offset = some o ∧ mmap_record mem' mi o = mmap_record mem mi o := by
  induction offset using mmap_trace.induct mem mi with
  | case1 x hlt hm =>
    rw [mmap_trace] at hag
    simp only [hlt, hm, dite_true, if_true, List.mem_singleton, forall_eq] at hag
    rw [first_match, mmap_walk] at hf ⊢
    simp only [hlt, dite_true, List.find?_cons, mmap_record, hm, hag] at hf ⊢
    simp only [Option.some.injEq] at hf
    subst hf
    exact ⟨rfl, hag⟩
  | case2 x hlt hm ih =>
    rw [mmap_trace] at hag
    simp only [Bool.not_eq_true] at hm
    simp only [hlt, hm, dite_true, Bool.false_eq_true, if_false, List.mem_cons,
      forall_eq_or_imp] at hag
    rw [first_match, mmap_walk] at hf ⊢
    simp only [hlt, dite_true, List.find?_cons, mmap_record, hm, hag.1] at hf ⊢
    exact ih hf hag.2
  | case3 x hlt =>
    rw [first_match, mmap_walk] at hf
    simp [hlt] at hf

theorem init_mem_failed (B : Build) (mem : Memory) (mi : multiboot_info) (m0 : Nat)
    (g : Globals) (hs : (_mb_init_mem B mem mi m0 g).1 ≠ Outcome.returned) :
    (_mb_init_mem B mem mi m0 g = (Outcome.assert_offset_failed, g) ∧
      first_match mem mi 0 = none) ∨
    (_mb_init_mem B mem mi m0 g = (Outcome.assert_end_failed, g) ∧
      ∃ o, first_match mem mi 0 = some o ∧
        candidate_end (mmap_record mem mi o) < u64 B._end) := by
  cases hf : first_match mem mi 0 with
  | none =>
    exact Or.inl ⟨init_mem_of_no_match B mem mi m0 g ((first_match_none_iff mem mi 0).mp hf),
      rfl⟩
  | some o =>
    have he := init_mem_of_first_match B mem mi m0 o g hf
    by_cases hc : u64 B._end ≤ candidate_end (mmap_record mem mi o)
    · rw [if_pos hc] at he
      rw [he] at hs
      exact absurd rfl hs
    · rw [if_neg hc] at he
      exact Or.inr ⟨he, o, rfl, by omega⟩

theorem entry_of_returned (B : Build) (mem : Memory) (arg : Nat) (mi : multiboot_info)
    (m0 : Nat) (cmdline : Buffer) (g l : Globals)
    (he : _mb_init_mem B mem mi m0 g = (Outcome.returned, l)) :
    _libkvmplat_entry B mem arg mi m0 cmdline g =
      entry_preamble B mem arg mi cmdline ++
        [Event.printd "    heap start: %p\n" (some l._libkvmplat_heap_start),
          Event.printd "     stack top: %p\n" (some l._libkvmplat_stack_top),
          Event.printd "Switch from bootstrap stack to stack @%p\n"
            (some l._libkvmplat_mem_end),
          Event.newstack (u64 l._libkvmplat_mem_end) Tramp._libkvmplat_entry2 0,
          Event.ukplat_entry_argp 0 (_mb_get_cmdline B mem mi cmdline MAX_CMDLINE_SIZE).1
            MAX_CMDLINE_SIZE] := by
  simp [_libkvmplat_entry, he, entry_preamble, _libkvmplat_newstack, _libkvmplat_entry2]

theorem entry_of_failed (B : Build) (mem : Memory) (arg : Nat) (mi : multiboot_info)
    (m0 : Nat) (cmdline : Buffer) (g l : Globals) (o : Outcome)
    (he : _mb_init_mem B mem mi m0 g = (o, l)) (ho : o ≠ Outcome.returned) :
    _libkvmplat_entry B mem arg mi m0 cmdline g =
      entry_preamble B mem arg mi cmdline ++ [Event.halt o] := by
  cases o with
  | returned => exact absurd rfl ho
  | assert_offset_failed => simp [_libkvmplat_entry, he, entry_preamble]
  | assert_end_failed => simp [_libkvmplat_entry, he, entry_preamble]

theorem entry_preamble_quiet (B : Build) (mem : Memory) (arg : Nat) (mi : multiboot_info)
    (cmdline : Buffer) :
    ∀ e ∈ entry_preamble B mem arg mi cmdline,
      e.is_newstack = false ∧ e.is_ukplat_entry = false := by
  intro e he
  simp only [entry_preamble, List.mem_append, List.mem_cons, List.mem_map] at he
  rcases he with (h | h | h | h | h | h) | ⟨s, -, h⟩
  all_goals first
    | (subst h; exact ⟨rfl, rfl⟩)
    | (simp at h)

theorem cmdline_unwritten (B : Build) (mem : Memory) (mi : multiboot_info)
    (cmdline : Buffer) (maxlen i : Nat) (h : cmdline_written B mem mi maxlen i = false) :
    (_mb_get_cmdline B mem mi cmdline maxlen).1 i = cmdline i := by
  by_cases hflag : u32 mi.flags &&& B.MULTIBOOT_INFO_CMDLINE = 0
  · simp only [cmdline_written, hflag, ne_eq, not_true_eq_false, if_false,
      decide_eq_false_iff_not] at h
    rw [get_cmdline_default B mem mi cmdline maxlen hflag]
    have h1 : ¬ i < strlen B.UK_NAME := by omega
    have h2 : i ≠ strlen B.UK_NAME := by omega
    simp [strcpy, h1, h2]
  · simp only [cmdline_written, ne_eq, hflag, not_false_eq_true, if_true, Bool.or_eq_false_iff,
      decide_eq_false_iff_not] at h
    simp only [_mb_get_cmdline, ne_eq, hflag, not_false_eq_true, if_true, store, memcpy]
    by_cases ht : strlen (mem.string_at (u64 (u32 mi.cmdline))) ≥ maxlen
    · simp only [ht, if_true, decide_True, le_refl] at h ⊢
      simp [h.1, h.2]
    · simp only [ht, if_false, decide_False] at h ⊢
      simp [h.1, h.2]

/-! ## Memory-map scan: ordering of the layout -/

/-- C1 (as stated, refuted).  A 1 MiB region at `0x100000` and an image ending at
`0x1F8000` pass both assertions, yet the layout has `heap_start = 0x1F8000`
above `stack_top = 0x1F0000`. -/
theorem init_mem_order_counterexample :
    _mb_init_mem (kvm_build 0x1F8000) mem_small (mi_map 0x9000 24) 0 g_null =
      (Outcome.returned, ⟨0x1F8000, 0x1F0000, 0x200000⟩) ∧
    ¬ ((_mb_init_mem (kvm_build 0x1F8000) mem_small (mi_map 0x9000 24) 0
          g_null).2._libkvmplat_heap_start ≤
        (_mb_init_mem (kvm_build 0x1F8000) mem_small (mi_map 0x9000 24) 0
          g_null).2._libkvmplat_stack_top ∧
      (_mb_init_mem (kvm_build 0x1F8000) mem_small (mi_map 0x9000 24) 0
          g_null).2._libkvmplat_stack_top <
        (_mb_init_mem (kvm_build 0x1F8000) mem_small (mi_map 0x9000 24) 0
          g_null).2._libkvmplat_mem_end) := by
  have h : _mb_init_mem (kvm_build 0x1F8000) mem_small (mi_map 0x9000 24) 0 g_null =
      (Outcome.returned, ⟨0x1F8000, 0x1F0000, 0x200000⟩) := by
    rw [mem_small, init_mem_one _ _ _ _ _ (by decide) (by decide)]
    decide
  rw [h]
  exact ⟨rfl, by decide⟩

/-- C1 (amended).  When `_mb_init_mem` succeeds, the image end is at most
`mem_end`, and `heap_start ≤ stack_top < mem_end` holds exactly when the stack
size is non-zero and the stack fits between `heap_start` and `mem_end`
(`heap_start + __STACK_SIZE ≤ mem_end`). -/
theorem init_mem_order (B : Build) (mem : Memory) (mi : multiboot_info) (m0 : Nat)
    (g : Globals) (hs : (_mb_init_mem B mem mi m0 g).1 = Outcome.returned) :
    u64 B._end ≤ (_mb_init_mem B mem mi m0 g).2._libkvmplat_mem_end ∧
    (((_mb_init_mem B mem mi m0 g).2._libkvmplat_heap_start ≤
          (_mb_init_mem B mem mi m0 g).2._libkvmplat_stack_top ∧
        (_mb_init_mem B mem mi m0 g).2._libkvmplat_stack_top <
          (_mb_init_mem B mem mi m0 g).2._libkvmplat_mem_end) ↔
      (0 < u64 B.__STACK_SIZE ∧
        (_mb_init_mem B mem mi m0 g).2._libkvmplat_heap_start + u64 B.__STACK_SIZE ≤
          (_mb_init_mem B mem mi m0 g).2._libkvmplat_mem_end)) := by
  obtain ⟨o, -, hc, he⟩ := init_mem_returned B mem mi m0 g hs
  rw [he]
  have hle := candidate_end_le (mmap_record mem mi o)
  simp only [layout_of]
  generalize ALIGN_UP (u64 B._end) B.__PAGE_SIZE = hp
  generalize candidate_end (mmap_record mem mi o) = ce at hc hle ⊢
  refine ⟨hc, ?_⟩
  simp only [sub64, u64, PLATFORM_MAX_MEM_ADDR] at *
  omega

/-- Witness of C1 (amended): 126 MiB at `0x100000`, image end `0x150000`. -/
theorem init_mem_order_witness :
    (_mb_init_mem (kvm_build 0x150000) mem_qemu (mi_map 0x9000 48) 0 g_null).1 =
      Outcome.returned ∧
    (u64 (kvm_build 0x150000)._end ≤
      (_mb_init_mem (kvm_build 0x150000) mem_qemu (mi_map 0x9000 48) 0
        g_null).2._libkvmplat_mem_end ∧
    (((_mb_init_mem (kvm_build 0x150000) mem_qemu (mi_map 0x9000 48) 0
          g_null).2._libkvmplat_heap_start ≤
          (_mb_init_mem (kvm_build 0x150000) mem_qemu (mi_map 0x9000 48) 0
            g_null).2._libkvmplat_stack_top ∧
        (_mb_init_mem (kvm_build 0x150000) mem_qemu (mi_map 0x9000 48) 0
            g_null).2._libkvmplat_stack_top <
          (_mb_init_mem (kvm_build 0x150000) mem_qemu (mi_map 0x9000 48) 0
            g_null).2._libkvmplat_mem_end) ↔
      (0 < u64 (kvm_build 0x150000).__STACK_SIZE ∧
        (_mb_init_mem (kvm_build 0x150000) mem_qemu (mi_map 0x9000 48) 0
            g_null).2._libkvmplat_heap_start + u64 (kvm_build 0x150000).__STACK_SIZE ≤
          (_mb_init_mem (kvm_build 0x150000) mem_qemu (mi_map 0x9000 48) 0
            g_null).2._libkvmplat_mem_end))) :=
  have h : (_mb_init_mem (kvm_build 0x150000) mem_qemu (mi_map 0x9000 48) 0 g_null).1 =
      Outcome.returned := by
    rw [init_mem_of_first_match _ _ _ _ 24 _ first_match_mem_qemu]
    decide
  ⟨h, init_mem_order (kvm_build 0x150000) mem_qemu (mi_map 0x9000 48) 0 g_null h⟩

/-! ## Command-line extraction -/

/-- C2 (as stated, refuted).  The claim that for every handoff and every capacity
`maxlen` some index below `maxlen` holds a `0` byte fails: with the flag unset
and `maxlen = 4` the name `Unikraft` is copied whole and its terminator lands at
index 8, and with `maxlen = 0` there is no index below the capacity at all. -/
theorem cmdline_terminated_counterexample :
    (¬ ∃ i, i < 4 ∧
      (_mb_get_cmdline (kvm_build 0x150000) (mem_cmdline 0x8000 boot_verbose)
        (mi_cmdline 0x40 0x8000) buf_ff 4).1 i = 0) ∧
    (¬ ∃ i, i < 0 ∧
      (_mb_get_cmdline (kvm_build 0x150000) (mem_cmdline 0x8000 boot_verbose)
        (mi_cmdline 0x44 0x8000) buf_ff 0).1 i = 0) := by
  constructor
  · decide
  · rintro ⟨i, hi, -⟩
    exact absurd hi (Nat.not_lt_zero i)

/-- C2 (amended).  For a capacity `1 ≤ maxlen < 2 ^ 64`, when the command-line
flag is set, or when it is unset and `UK_NAME` is shorter than `maxlen`, the
buffer left by `_mb_get_cmdline` has a `0` byte at an index below `maxlen`. -/
theorem cmdline_terminated (B : Build) (mem : Memory) (mi : multiboot_info)
    (cmdline : Buffer) (maxlen : Nat) (hpos : 0 < maxlen) (hmax : maxlen < 2 ^ 64)
    (h : u32 mi.flags &&& B.MULTIBOOT_INFO_CMDLINE ≠ 0 ∨ strlen B.UK_NAME < maxlen) :
    ∃ i, i < maxlen ∧ (_mb_get_cmdline B mem mi cmdline maxlen).1 i = 0 := by
  by_cases hflag : u32 mi.flags &&& B.MULTIBOOT_INFO_CMDLINE = 0
  · have hn : strlen B.UK_NAME < maxlen := by
      rcases h with h | h
      · exact absurd hflag h
      · exact h
    refine ⟨strlen B.UK_NAME, hn, ?_⟩
    rw [get_cmdline_default B mem mi cmdline maxlen hflag]
    simp [strcpy]
  · by_cases hlen : strlen (cmdline_src mem mi) < maxlen
    · refine ⟨strlen (cmdline_src mem mi), hlen, ?_⟩
      rw [get_cmdline_short B mem mi cmdline maxlen hmax hflag hlen]
      simp [store]
    · refine ⟨maxlen - 1, by omega, ?_⟩
      rw [get_cmdline_long B mem mi cmdline maxlen hflag (by omega),
        sub64_one maxlen hpos hmax]
      simp [store]

/-- Witness of C2 (amended): flag unset, capacity `MAX_CMDLINE_SIZE`, name `Unikraft`. -/
theorem cmdline_terminated_witness :
    ∃ i, i < MAX_CMDLINE_SIZE ∧
      (_mb_get_cmdline (kvm_build 0x150000) (mem_cmdline 0x8000 boot_verbose)
        (mi_cmdline 0x40 0x8000) buf_ff MAX_CMDLINE_SIZE).1 i = 0 :=
  cmdline_terminated (kvm_build 0x150000) (mem_cmdline 0x8000 boot_verbose)
    (mi_cmdline 0x40 0x8000) buf_ff MAX_CMDLINE_SIZE (by decide) (by decide)
    (Or.inr (by decide))

/-- C3.  With the command-line flag set and a source string of length
`L ≥ maxlen`, `_mb_get_cmdline` leaves the first `maxlen - 1` source bytes in
the buffer's first `maxlen - 1` bytes, a `0` byte at index `maxlen - 1`, and
emits the truncation diagnostic exactly once.  Here `maxlen - 1` is the
`size_t` value the code computes, which is the number `maxlen - 1` for every
capacity `1 ≤ maxlen < 2 ^ 64`. -/
theorem cmdline_truncated (B : Build) (mem : Memory) (mi : multiboot_info)
    (cmdline : Buffer) (maxlen : Nat)
    (hflag : u32 mi.flags &&& B.MULTIBOOT_INFO_CMDLINE ≠ 0)
    (hlen : maxlen ≤ strlen (cmdline_src mem mi)) :
    (∀ i, i < sub64 maxlen 1 →
      (_mb_get_cmdline B mem mi cmdline maxlen).1 i = (cmdline_src mem mi).getD i 0) ∧
    (_mb_get_cmdline B mem mi cmdline maxlen).1 (sub64 maxlen 1) = 0 ∧
    (_mb_get_cmdline B mem mi cmdline maxlen).2.count MSG_TRUNCATED = 1 ∧
    (0 < maxlen → maxlen < 2 ^ 64 → sub64 maxlen 1 = maxlen - 1) := by
  rw [get_cmdline_long B mem mi cmdline maxlen hflag hlen]
  refine ⟨?_, ?_, ?_, fun h0 h1 => sub64_one maxlen h0 h1⟩
  · intro i hi
    have : i ≠ sub64 maxlen 1 := by omega
    simp [store, memcpy, this, hi]
  · simp [store]
  · simp

/-- Witness of C3: a source of 9000 bytes `A` and capacity 8192 give 8191 copied
bytes, the terminator at index 8191 and one truncation diagnostic. -/
theorem cmdline_truncated_witness :
    sub64 8192 1 = 8191 ∧
    (∀ i, i < sub64 8192 1 →
      (_mb_get_cmdline (kvm_build 0x150000) (mem_cmdline 0x8000 (List.replicate 9000 65))
        (mi_cmdline 0x44 0x8000) buf_ff 8192).1 i =
        (cmdline_src (mem_cmdline 0x8000 (List.replicate 9000 65))
          (mi_cmdline 0x44 0x8000)).getD i 0) ∧
    (_mb_get_cmdline (kvm_build 0x150000) (mem_cmdline 0x8000 (List.replicate 9000 65))
        (mi_cmdline 0x44 0x8000) buf_ff 8192).1 (sub64 8192 1) = 0 ∧
    (_mb_get_cmdline (kvm_build 0x150000) (mem_cmdline 0x8000 (List.replicate 9000 65))
        (mi_cmdline 0x44 0x8000) buf_ff 8192).2.count MSG_TRUNCATED = 1 ∧
    (0 < 8192 → 8192 < 2 ^ 64 → sub64 8192 1 = 8192 - 1) :=
  ⟨by decide,
    cmdline_truncated (kvm_build 0x150000) (mem_cmdline 0x8000 (List.replicate 9000 65))
      (mi_cmdline 0x44 0x8000) buf_ff 8192 (by decide)
      (by
        have h : cmdline_src (mem_cmdline 0x8000 (List.replicate 9000 65))
            (mi_cmdline 0x44 0x8000) = List.replicate 9000 65 := rfl
        rw [h, strlen_replicate 9000 65 (by decide)]
        decide)⟩

/-- C4.  With the command-line flag set and a source string of length
`L < maxlen`, `_mb_get_cmdline` leaves the `L` source bytes in the buffer's
first `L` bytes, a `0` byte at index `L`, and emits no truncation diagnostic. -/
theorem cmdline_copied (B : Build) (mem : Memory) (mi : multiboot_info)
    (cmdline : Buffer) (maxlen : Nat) (hmax : maxlen < 2 ^ 64)
    (hflag : u32 mi.flags &&& B.MULTIBOOT_INFO_CMDLINE ≠ 0)
    (hlen : strlen (cmdline_src mem mi) < maxlen) :
    (∀ i, i < strlen (cmdline_src mem mi) →
      (_mb_get_cmdline B mem mi cmdline maxlen).1 i = (cmdline_src mem mi).getD i 0) ∧
    (_mb_get_cmdline B mem mi cmdline maxlen).1 (strlen (cmdline_src mem mi)) = 0 ∧
    (_mb_get_cmdline B mem mi cmdline maxlen).2.count MSG_TRUNCATED = 0 := by
  rw [get_cmdline_short B mem mi cmdline maxlen hmax hflag hlen]
  refine ⟨?_, ?_, ?_⟩
  · intro i hi
    have : i ≠ strlen (cmdline_src mem mi) := by omega
    simp [store, memcpy, this, hi]
  · simp [store]
  · simp

/-- Witness of C4: the source `boot=verbose` (12 bytes) and capacity 8192 give
the 12 bytes copied, the terminator at index 12 and no truncation diagnostic. -/
theorem cmdline_copied_witness :
    strlen (cmdline_src (mem_cmdline 0x8000 boot_verbose) (mi_cmdline 0x44 0x8000)) = 12 ∧
    (∀ i, i < strlen (cmdline_src (mem_cmdline 0x8000 boot_verbose) (mi_cmdline 0x44 0x8000)) →
      (_mb_get_cmdline (kvm_build 0x150000) (mem_cmdline 0x8000 boot_verbose)
        (mi_cmdline 0x44 0x8000) buf_ff 8192).1 i =
        (cmdline_src (mem_cmdline 0x8000 boot_verbose) (mi_cmdline 0x44 0x8000)).getD i 0) ∧
    (_mb_get_cmdline (kvm_build 0x150000) (mem_cmdline 0x8000 boot_verbose)
        (mi_cmdline 0x44 0x8000) buf_ff 8192).1
      (strlen (cmdline_src (mem_cmdline 0x8000 boot_verbose) (mi_cmdline 0x44 0x8000))) = 0 ∧
    (_mb_get_cmdline (kvm_build 0x150000) (mem_cmdline 0x8000 boot_verbose)
        (mi_cmdline 0x44 0x8000) buf_ff 8192).2.count MSG_TRUNCATED = 0 :=
  ⟨by decide,
    cmdline_copied (kvm_build 0x150000) (mem_cmdline 0x8000 boot_verbose)
      (mi_cmdline 0x44 0x8000) buf_ff 8192 (by decide) (by decide) (by decide)⟩

/-- C5.  When the command-line flag is not set in the handoff's flags,
`_mb_get_cmdline` leaves in the buffer the bytes of `UK_NAME` followed by a `0`
byte, whatever the handoff's `cmdline` field, the memory, the capacity and the
buffer's previous content are. -/
theorem cmdline_default (B : Build) (mem : Memory) (mi : multiboot_info)
    (cmdline : Buffer) (maxlen : Nat)
    (hflag : u32 mi.flags &&& B.MULTIBOOT_INFO_CMDLINE = 0) :
    (∀ i, i < strlen B.UK_NAME →
      (_mb_get_cmdline B mem mi cmdline maxlen).1 i = B.UK_NAME.getD i 0) ∧
    (_mb_get_cmdline B mem mi cmdline maxlen).1 (strlen B.UK_NAME) = 0 := by
  rw [get_cmdline_default B mem mi cmdline maxlen hflag]
  refine ⟨?_, ?_⟩
  · intro i hi
    simp [strcpy, hi]
  · simp [strcpy]

/-- Witness of C5: flags `0x40` (no command line), a dangling `cmdline` field and
a buffer full of `0xFF` give `Unikraft` and its terminator at index 8. -/
theorem cmdline_default_witness :
    strlen (kvm_build 0x150000).UK_NAME = 8 ∧
    ((∀ i, i < strlen (kvm_build 0x150000).UK_NAME →
      (_mb_get_cmdline (kvm_build 0x150000) (mem_cmdline 0x8000 boot_verbose)
        (mi_cmdline 0x40 0xdead) buf_ff 8192).1 i = (kvm_build 0x150000).UK_NAME.getD i 0) ∧
    (_mb_get_cmdline (kvm_build 0x150000) (mem_cmdline 0x8000 boot_verbose)
        (mi_cmdline 0x40 0xdead) buf_ff 8192).1 (strlen (kvm_build 0x150000).UK_NAME) = 0) :=
  ⟨by decide,
    cmdline_default (kvm_build 0x150000) (mem_cmdline 0x8000 boot_verbose)
      (mi_cmdline 0x40 0xdead) buf_ff 8192 (by decide)⟩

/-! ## Memory-map scan: failure, layout, cap and alignment -/

/-- C6.  When no record visited by the stride walk has base `PLATFORM_MEM_START`
and type Available (in particular when the map is empty), `_mb_init_mem` stops
at its first assertion and the three layout globals keep their values. -/
theorem init_mem_no_region (B : Build) (mem : Memory) (mi : multiboot_info) (m0 : Nat)
    (g : Globals)
    (h : ∀ o ∈ mmap_walk mem mi 0, mmap_match (mmap_record mem mi o) = false) :
    _mb_init_mem B mem mi m0 g = (Outcome.assert_offset_failed, g) ∧
    (u32 mi.mmap_length = 0 → mmap_walk mem mi 0 = []) :=
  ⟨init_mem_of_no_match B mem mi m0 g h, mmap_walk_empty mem mi⟩

/-- Witness of C6: a map of two records, neither Available at `0x100000`. -/
theorem init_mem_no_region_witness :
    (∀ o ∈ mmap_walk mem_reserved (mi_map 0x9000 48) 0,
      mmap_match (mmap_record mem_reserved (mi_map 0x9000 48) o) = false) ∧
    _mb_init_mem (kvm_build 0x150000) mem_reserved (mi_map 0x9000 48) 0 g_null =
      (Outcome.assert_offset_failed, g_null) ∧
    (u32 (mi_map 0x9000 48).mmap_length = 0 →
      mmap_walk mem_reserved (mi_map 0x9000 48) 0 = []) :=
  have h : ∀ o ∈ mmap_walk mem_reserved (mi_map 0x9000 48) 0,
      mmap_match (mmap_record mem_reserved (mi_map 0x9000 48) o) = false := by
    rw [walk_mem_reserved]
    decide
  ⟨h, init_mem_no_region (kvm_build 0x150000) mem_reserved (mi_map 0x9000 48) 0 g_null h⟩

theorem candidate_end_eq_min_wrapped (r : multiboot_mmap_entry) :
    candidate_end r = min (u64 (u64 r.addr + u64 r.len)) PLATFORM_MAX_MEM_ADDR := by
  simp only [candidate_end]
  split <;> omega

theorem init_mem_top : _mb_init_mem (kvm_build 0x150000) mem_top (mi_map 0x9000 24) 0 g_null =
    (Outcome.assert_end_failed, g_null) := by
  rw [mem_top, init_mem_one _ _ _ _ _ (by decide) (by decide)]
  decide

/-- C7 (as stated, refuted).  The map holds one record, Available with base
`0x100000` and length `0xFFFFFFFFFFF00000`, so `base + length = 2 ^ 64` and
`min (base + length, PLATFORM_MAX_MEM_ADDR) = 0x40000000`.  The image end
`0x150000` is below that value, yet the scan does not succeed: the 64-bit sum
wraps to `0` and the second assertion fails. -/
theorem init_mem_fails_iff_counterexample :
    (∃ o ∈ mmap_walk mem_top (mi_map 0x9000 24) 0,
      mmap_match (mmap_record mem_top (mi_map 0x9000 24) o) = true) ∧
    first_match mem_top (mi_map 0x9000 24) 0 = some 0 ∧
    (mmap_record mem_top (mi_map 0x9000 24) 0).addr +
      (mmap_record mem_top (mi_map 0x9000 24) 0).len = 2 ^ 64 ∧
    (kvm_build 0x150000)._end ≤
      min ((mmap_record mem_top (mi_map 0x9000 24) 0).addr +
        (mmap_record mem_top (mi_map 0x9000 24) 0).len) PLATFORM_MAX_MEM_ADDR ∧
    (_mb_init_mem (kvm_build 0x150000) mem_top (mi_map 0x9000 24) 0 g_null).1 ≠
      Outcome.returned ∧
    _mb_init_mem (kvm_build 0x150000) mem_top (mi_map 0x9000 24) 0 g_null =
      (Outcome.assert_end_failed, g_null) := by
  have hf : first_match mem_top (mi_map 0x9000 24) 0 = some 0 :=
    first_match_head _ _ (by decide) (by decide)
  refine ⟨⟨0, (first_match_spec _ _ 0 0 hf).1, by decide⟩, hf, by decide, by decide, ?_,
    init_mem_top⟩
  rw [init_mem_top]
  exact fun hc => Outcome.noConfusion hc

/-- C7 (amended).  When the stride walk visits a record that is Available with
base `PLATFORM_MEM_START`, let `r` be the first such record and let
`candidate_end` be the minimum of the 64-bit sum `(r.addr + r.len) mod 2 ^ 64`
and `PLATFORM_MAX_MEM_ADDR`.  Then `_mb_init_mem` fails exactly when
`_end > candidate_end`; when it fails it does so at the second assertion with
the globals unchanged; when `_end ≤ candidate_end` it returns; and when
`r.addr + r.len` is below `2 ^ 64`, `candidate_end` is the minimum of the exact
sum and `PLATFORM_MAX_MEM_ADDR`. -/
theorem init_mem_fails_iff (B : Build) (mem : Memory) (mi : multiboot_info) (m0 : Nat)
    (g : Globals)
    (h : ∃ o ∈ mmap_walk mem mi 0, mmap_match (mmap_record mem mi o) = true) :
    ∃ o, first_match mem mi 0 = some o ∧
      ((_mb_init_mem B mem mi m0 g).1 ≠ Outcome.returned ↔
        min (u64 (u64 (mmap_record mem mi o).addr + u64 (mmap_record mem mi o).len))
          PLATFORM_MAX_MEM_ADDR < u64 B._end) ∧
      ((_mb_init_mem B mem mi m0 g).1 ≠ Outcome.returned →
        _mb_init_mem B mem mi m0 g = (Outcome.assert_end_failed, g)) ∧
      (u64 B._end ≤
          min (u64 (u64 (mmap_record mem mi o).addr + u64 (mmap_record mem mi o).len))
            PLATFORM_MAX_MEM_ADDR →
        (_mb_init_mem B mem mi m0 g).1 = Outcome.returned) ∧
      (u64 (mmap_record mem mi o).addr + u64 (mmap_record mem mi o).len < 2 ^ 64 →
        min (u64 (u64 (mmap_record mem mi o).addr + u64 (mmap_record mem mi o).len))
            PLATFORM_MAX_MEM_ADDR =
          min (u64 (mmap_record mem mi o).addr + u64 (mmap_record mem mi o).len)
            PLATFORM_MAX_MEM_ADDR) := by
  obtain ⟨o, ho⟩ := first_match_some_of_exists mem mi 0 h
  refine ⟨o, ho, ?_⟩
  rw [← candidate_end_eq_min_wrapped (mmap_record mem mi o),
    init_mem_of_first_match B mem mi m0 o g ho]
  by_cases hc : u64 B._end ≤ candidate_end (mmap_record mem mi o)
  · rw [if_pos hc]
    refine ⟨?_, ?_, ?_, candidate_end_eq_min _⟩
    · constructor
      · intro hne
        exact absurd rfl hne
      · intro hlt
        omega
    · intro hne
      exact absurd rfl hne
    · intro _
      rfl
  · rw [if_neg hc]
    refine ⟨?_, ?_, ?_, candidate_end_eq_min _⟩
    · constructor
      · intro _
        omega
      · intro _ hr
        exact Outcome.noConfusion hr
    · intro _
      rfl
    · intro hle
      exact absurd hle hc

/-- Witness of C7 (amended): the second record of the map matches and ends at
`0x7FE0000`; with the image end at `0x8000000` the scan stops at the second
assertion. -/
theorem init_mem_fails_iff_witness :
    (∃ o ∈ mmap_walk mem_qemu (mi_map 0x9000 48) 0,
      mmap_match (mmap_record mem_qemu (mi_map 0x9000 48) o) = true) ∧
    (∃ o, first_match mem_qemu (mi_map 0x9000 48) 0 = some o ∧
      ((_mb_init_mem (kvm_build 0x8000000) mem_qemu (mi_map 0x9000 48) 0 g_null).1
          ≠ Outcome.returned ↔
        min (u64 (u64 (mmap_record mem_qemu (mi_map 0x9000 48) o).addr +
            u64 (mmap_record mem_qemu (mi_map 0x9000 48) o).len))
          PLATFORM_MAX_MEM_ADDR < u64 (kvm_build 0x8000000)._end) ∧
      ((_mb_init_mem (kvm_build 0x8000000) mem_qemu (mi_map 0x9000 48) 0 g_null).1
          ≠ Outcome.returned →
        _mb_init_mem (kvm_build 0x8000000) mem_qemu (mi_map 0x9000 48) 0 g_null =
          (Outcome.assert_end_failed, g_null)) ∧
      (u64 (kvm_build 0x8000000)._end ≤
          min (u64 (u64 (mmap_record mem_qemu (mi_map 0x9000 48) o).addr +
              u64 (mmap_record mem_qemu (mi_map 0x9000 48) o).len))
            PLATFORM_MAX_MEM_ADDR →
        (_mb_init_mem (kvm_build 0x8000000) mem_qemu (mi_map 0x9000 48) 0 g_null).1 =
          Outcome.returned) ∧
      (u64 (mmap_record mem_qemu (mi_map 0x9000 48) o).addr +
          u64 (mmap_record mem_qemu (mi_map 0x9000 48) o).len < 2 ^ 64 →
        min (u64 (u64 (mmap_record mem_qemu (mi_map 0x9000 48) o).addr +
              u64 (mmap_record mem_qemu (mi_map 0x9000 48) o).len))
            PLATFORM_MAX_MEM_ADDR =
          min (u64 (mmap_record mem_qemu (mi_map 0x9000 48) o).addr +
              u64 (mmap_record mem_qemu (mi_map 0x9000 48) o).len)
            PLATFORM_MAX_MEM_ADDR)) ∧
    candidate_end (mmap_record mem_qemu (mi_map 0x9000 48) 24) = 0x7FE0000 ∧
    _mb_init_mem (kvm_build 0x8000000) mem_qemu (mi_map 0x9000 48) 0 g_null =
      (Outcome.assert_end_failed, g_null) :=
  have h : ∃ o ∈ mmap_walk mem_qemu (mi_map 0x9000 48) 0,
      mmap_match (mmap_record mem_qemu (mi_map 0x9000 48) o) = true := by
    rw [walk_mem_qemu]
    exact ⟨24, by simp, by decide⟩
  ⟨h, init_mem_fails_iff (kvm_build 0x8000000) mem_qemu (mi_map 0x9000 48) 0 g_null h,
    by decide,
    by rw [init_mem_of_first_match _ _ _ _ 24 _ first_match_mem_qemu]; decide⟩

/-- C8 (as stated, refuted).  On the map and image of Scenario A the record ends
at `0x100000 + 0x3F000000 = 0x3F100000`, below the cap, so the scan yields
`mem_end = 0x3F100000` and `stack_top = 0x3F0F0000`, not `0x40000000` and
`0x40000000 - __STACK_SIZE`. -/
theorem init_mem_layout_counterexample :
    _mb_init_mem (kvm_build 0x150000) mem_scenario_a (mi_map 0x9000 24) 0 g_null =
      (Outcome.returned, ⟨0x150000, 0x3F0F0000, 0x3F100000⟩) ∧
    (_mb_init_mem (kvm_build 0x150000) mem_scenario_a (mi_map 0x9000 24) 0
        g_null).2._libkvmplat_mem_end ≠ 0x40000000 ∧
    (_mb_init_mem (kvm_build 0x150000) mem_scenario_a (mi_map 0x9000 24) 0
        g_null).2._libkvmplat_stack_top ≠ 0x40000000 - (kvm_build 0x150000).__STACK_SIZE := by
  have h : _mb_init_mem (kvm_build 0x150000) mem_scenario_a (mi_map 0x9000 24) 0 g_null =
      (Outcome.returned, ⟨0x150000, 0x3F0F0000, 0x3F100000⟩) := by
    rw [mem_scenario_a, init_mem_one _ _ _ _ _ (by decide) (by decide)]
    decide
  rw [h]
  exact ⟨rfl, by decide, by decide⟩

/-- C8 (amended).  When `_mb_init_mem` succeeds there is a first record `r` of the
walk that is Available with base `PLATFORM_MEM_START`, and the layout is
`heap_start = ALIGN_UP (_end, __PAGE_SIZE)`, `mem_end = candidate_end r` (the
64-bit sum `r.addr + r.len`, capped at `0x40000000`) and
`stack_top = mem_end - __STACK_SIZE` (64-bit subtraction). -/
theorem init_mem_layout (B : Build) (mem : Memory) (mi : multiboot_info) (m0 : Nat)
    (g : Globals) (hs : (_mb_init_mem B mem mi m0 g).1 = Outcome.returned) :
    ∃ o, first_match mem mi 0 = some o ∧
      (_mb_init_mem B mem mi m0 g).2._libkvmplat_heap_start =
        ALIGN_UP (u64 B._end) B.__PAGE_SIZE ∧
      (_mb_init_mem B mem mi m0 g).2._libkvmplat_mem_end =
        (if u64 (u64 (mmap_record mem mi o).addr + u64 (mmap_record mem mi o).len)
            > PLATFORM_MAX_MEM_ADDR then PLATFORM_MAX_MEM_ADDR
          else u64 (u64 (mmap_record mem mi o).addr + u64 (mmap_record mem mi o).len)) ∧
      (_mb_init_mem B mem mi m0 g).2._libkvmplat_stack_top =
        sub64 (_mb_init_mem B mem mi m0 g).2._libkvmplat_mem_end B.__STACK_SIZE := by
  obtain ⟨o, ho, -, he⟩ := init_mem_returned B mem mi m0 g hs
  refine ⟨o, ho, ?_⟩
  rw [he]
  exact ⟨rfl, rfl, rfl⟩

/-- Witness of C8 (amended): Scenario A gives `heap_start = 0x150000`,
`mem_end = 0x3F100000` and `stack_top = 0x3F100000 - 0x10000`. -/
theorem init_mem_layout_witness :
    (_mb_init_mem (kvm_build 0x150000) mem_scenario_a (mi_map 0x9000 24) 0 g_null).1 =
      Outcome.returned ∧
    (∃ o, first_match mem_scenario_a (mi_map 0x9000 24) 0 = some o ∧
      (_mb_init_mem (kvm_build 0x150000) mem_scenario_a (mi_map 0x9000 24) 0
          g_null).2._libkvmplat_heap_start =
        ALIGN_UP (u64 (kvm_build 0x150000)._end) (kvm_build 0x150000).__PAGE_SIZE ∧
      (_mb_init_mem (kvm_build 0x150000) mem_scenario_a (mi_map 0x9000 24) 0
          g_null).2._libkvmplat_mem_end =
        (if u64 (u64 (mmap_record mem_scenario_a (mi_map 0x9000 24) o).addr +
              u64 (mmap_record mem_scenario_a (mi_map 0x9000 24) o).len)
            > PLATFORM_MAX_MEM_ADDR then PLATFORM_MAX_MEM_ADDR
          else u64 (u64 (mmap_record mem_scenario_a (mi_map 0x9000 24) o).addr +
              u64 (mmap_record mem_scenario_a (mi_map 0x9000 24) o).len)) ∧
      (_mb_init_mem (kvm_build 0x150000) mem_scenario_a (mi_map 0x9000 24) 0
          g_null).2._libkvmplat_stack_top =
        sub64 (_mb_init_mem (kvm_build 0x150000) mem_scenario_a (mi_map 0x9000 24) 0
          g_null).2._libkvmplat_mem_end (kvm_build 0x150000).__STACK_SIZE) ∧
    (_mb_init_mem (kvm_build 0x150000) mem_scenario_a (mi_map 0x9000 24) 0 g_null).2 =
      ⟨0x150000, 0x3F100000 - 0x10000, 0x3F100000⟩ :=
  have h : _mb_init_mem (kvm_build 0x150000) mem_scenario_a (mi_map 0x9000 24) 0 g_null =
      (Outcome.returned, ⟨0x150000, 0x3F0F0000, 0x3F100000⟩) := by
    rw [mem_scenario_a, init_mem_one _ _ _ _ _ (by decide) (by decide)]
    decide
  have hs : (_mb_init_mem (kvm_build 0x150000) mem_scenario_a (mi_map 0x9000 24) 0
      g_null).1 = Outcome.returned := by rw [h]
  ⟨hs, init_mem_layout (kvm_build 0x150000) mem_scenario_a (mi_map 0x9000 24) 0 g_null hs,
    by rw [h]⟩

/-- C9 (as stated, refuted).  The sum `m->addr + m->len` is a 64-bit sum.  For a
matched record with `addr + len = 2 ^ 64 + 0x90000` and an image ending at
`0x80000` the scan succeeds with `mem_end = 0x90000`, while the minimum of the
exact sum and the cap is `0x40000000`.  For a matched record reaching to
`2 ^ 64` the value derived is `0`, not the cap, and with the image ending at
`0x150000` the scan stops at its second assertion. -/
theorem init_mem_cap_counterexample :
    (_mb_init_mem (kvm_build 0x80000) mem_wrap (mi_map 0x9000 24) 0 g_null).1 =
      Outcome.returned ∧
    (_mb_init_mem (kvm_build 0x80000) mem_wrap (mi_map 0x9000 24) 0
      g_null).2._libkvmplat_mem_end = 0x90000 ∧
    min ((mmap_record mem_wrap (mi_map 0x9000 24) 0).addr +
      (mmap_record mem_wrap (mi_map 0x9000 24) 0).len) 0x40000000 = 0x40000000 ∧
    candidate_end (mmap_record mem_top (mi_map 0x9000 24) 0) = 0 ∧
    min ((mmap_record mem_top (mi_map 0x9000 24) 0).addr +
      (mmap_record mem_top (mi_map 0x9000 24) 0).len) 0x40000000 = 0x40000000 ∧
    _mb_init_mem (kvm_build 0x150000) mem_top (mi_map 0x9000 24) 0 g_null =
      (Outcome.assert_end_failed, g_null) := by
  have h : _mb_init_mem (kvm_build 0x80000) mem_wrap (mi_map 0x9000 24) 0 g_null =
      (Outcome.returned, ⟨0x80000, 0x80000, 0x90000⟩) := by
    rw [mem_wrap, init_mem_one _ _ _ _ _ (by decide) (by decide)]
    decide
  have h2 : _mb_init_mem (kvm_build 0x150000) mem_top (mi_map 0x9000 24) 0 g_null =
      (Outcome.assert_end_failed, g_null) := by
    rw [mem_top, init_mem_one _ _ _ _ _ (by decide) (by decide)]
    decide
  rw [h]
  exact ⟨rfl, rfl, by decide, by decide, by decide, h2⟩

/-- C9 (amended).  When `_mb_init_mem` succeeds on the matched record `r`,
`mem_end` is the minimum of the 64-bit sum `(r.addr + r.len) mod 2 ^ 64` and
`0x40000000`, hence at most `PLATFORM_MAX_MEM_ADDR`; it is the minimum of the
exact sum `r.addr + r.len` and `0x40000000` whenever that sum is below
`2 ^ 64`, which is the case in every successful scan of an image that ends at or
above `PLATFORM_MEM_START`. -/
theorem init_mem_cap (B : Build) (mem : Memory) (mi : multiboot_info) (m0 : Nat)
    (g : Globals) (hs : (_mb_init_mem B mem mi m0 g).1 = Outcome.returned) :
    ∃ o, first_match mem mi 0 = some o ∧
      (_mb_init_mem B mem mi m0 g).2._libkvmplat_mem_end =
        min (u64 (u64 (mmap_record mem mi o).addr + u64 (mmap_record mem mi o).len))
          PLATFORM_MAX_MEM_ADDR ∧
      (_mb_init_mem B mem mi m0 g).2._libkvmplat_mem_end ≤ PLATFORM_MAX_MEM_ADDR ∧
      (u64 (mmap_record mem mi o).addr + u64 (mmap_record mem mi o).len < 2 ^ 64 →
        (_mb_init_mem B mem mi m0 g).2._libkvmplat_mem_end =
          min (u64 (mmap_record mem mi o).addr + u64 (mmap_record mem mi o).len)
            PLATFORM_MAX_MEM_ADDR) ∧
      (PLATFORM_MEM_START ≤ u64 B._end →
        u64 (mmap_record mem mi o).addr + u64 (mmap_record mem mi o).len < 2 ^ 64) := by
  obtain ⟨o, ho, hc, he⟩ := init_mem_returned B mem mi m0 g hs
  refine ⟨o, ho, ?_⟩
  rw [he]
  simp only [layout_of]
  refine ⟨?_, candidate_end_le _, candidate_end_eq_min _, ?_⟩
  · simp only [candidate_end]
    split <;> omega
  · intro hend
    exact candidate_end_no_wrap B _ (first_match_spec mem mi 0 o ho).2 hend hc

/-- Witness of C9 (amended): 126 MiB at `0x100000`, image end `0x150000`. -/
theorem init_mem_cap_witness :
    (_mb_init_mem (kvm_build 0x150000) mem_qemu (mi_map 0x9000 48) 0 g_null).1 =
      Outcome.returned ∧
    (∃ o, first_match mem_qemu (mi_map 0x9000 48) 0 = some o ∧
      (_mb_init_mem (kvm_build 0x150000) mem_qemu (mi_map 0x9000 48) 0
          g_null).2._libkvmplat_mem_end =
        min (u64 (u64 (mmap_record mem_qemu (mi_map 0x9000 48) o).addr +
            u64 (mmap_record mem_qemu (mi_map 0x9000 48) o).len))
          PLATFORM_MAX_MEM_ADDR ∧
      (_mb_init_mem (kvm_build 0x150000) mem_qemu (mi_map 0x9000 48) 0
          g_null).2._libkvmplat_mem_end ≤ PLATFORM_MAX_MEM_ADDR ∧
      (u64 (mmap_record mem_qemu (mi_map 0x9000 48) o).addr +
            u64 (mmap_record mem_qemu (mi_map 0x9000 48) o).len < 2 ^ 64 →
        (_mb_init_mem (kvm_build 0x150000) mem_qemu (mi_map 0x9000 48) 0
            g_null).2._libkvmplat_mem_end =
          min (u64 (mmap_record mem_qemu (mi_map 0x9000 48) o).addr +
              u64 (mmap_record mem_qemu (mi_map 0x9000 48) o).len)
            PLATFORM_MAX_MEM_ADDR) ∧
      (PLATFORM_MEM_START ≤ u64 (kvm_build 0x150000)._end →
        u64 (mmap_record mem_qemu (mi_map 0x9000 48) o).addr +
          u64 (mmap_record mem_qemu (mi_map 0x9000 48) o).len < 2 ^ 64)) ∧
    (_mb_init_mem (kvm_build 0x150000) mem_qemu (mi_map 0x9000 48) 0
      g_null).2._libkvmplat_mem_end = 0x7FE0000 :=
  have h : _mb_init_mem (kvm_build 0x150000) mem_qemu (mi_map 0x9000 48) 0 g_null =
      (Outcome.returned, ⟨0x150000, 0x7FD0000, 0x7FE0000⟩) := by
    rw [init_mem_of_first_match _ _ _ _ 24 _ first_match_mem_qemu]
    decide
  have hs : (_mb_init_mem (kvm_build 0x150000) mem_qemu (mi_map 0x9000 48) 0 g_null).1 =
      Outcome.returned := by rw [h]
  ⟨hs, init_mem_cap (kvm_build 0x150000) mem_qemu (mi_map 0x9000 48) 0 g_null hs, by rw [h]⟩

/-- C10 (as stated, refuted).  A matched record of length `0x100800` ends at
`0x200800`; the scan succeeds with `mem_end = 0x200800` and
`stack_top = 0x1F0800`, neither a multiple of the page size `0x1000`. -/
theorem init_mem_aligned_counterexample :
    _mb_init_mem (kvm_build 0x150000) mem_odd (mi_map 0x9000 24) 0 g_null =
      (Outcome.returned, ⟨0x150000, 0x1F0800, 0x200800⟩) ∧
    ¬ ((kvm_build 0x150000).__PAGE_SIZE ∣
        (_mb_init_mem (kvm_build 0x150000) mem_odd (mi_map 0x9000 24) 0
          g_null).2._libkvmplat_heap_start ∧
      (kvm_build 0x150000).__PAGE_SIZE ∣
        (_mb_init_mem (kvm_build 0x150000) mem_odd (mi_map 0x9000 24) 0
          g_null).2._libkvmplat_stack_top ∧
      (kvm_build 0x150000).__PAGE_SIZE ∣
        (_mb_init_mem (kvm_build 0x150000) mem_odd (mi_map 0x9000 24) 0
          g_null).2._libkvmplat_mem_end) := by
  have h : _mb_init_mem (kvm_build 0x150000) mem_odd (mi_map 0x9000 24) 0 g_null =
      (Outcome.returned, ⟨0x150000, 0x1F0800, 0x200800⟩) := by
    rw [mem_odd, init_mem_one _ _ _ _ _ (by decide) (by decide)]
    decide
  rw [h]
  exact ⟨rfl, by decide⟩

/-- C10 (amended).  When `_mb_init_mem` succeeds and the page size is a power of
two `2 ^ k` with `k < 64`: `heap_start` is a multiple of the page size;
`mem_end` is one when `k ≤ 30` and the matched record's 64-bit end
`r.addr + r.len` is a multiple of the page size or lies above the cap; and
`stack_top` is one when `mem_end` and `__STACK_SIZE` are. -/
theorem init_mem_aligned (B : Build) (mem : Memory) (mi : multiboot_info) (m0 : Nat)
    (g : Globals) (k : Nat) (hk : k < 64) (hp : B.__PAGE_SIZE = 2 ^ k)
    (hs : (_mb_init_mem B mem mi m0 g).1 = Outcome.returned) :
    ∃ o, first_match mem mi 0 = some o ∧
      B.__PAGE_SIZE ∣ (_mb_init_mem B mem mi m0 g).2._libkvmplat_heap_start ∧
      (k ≤ 30 →
        (B.__PAGE_SIZE ∣ u64 (u64 (mmap_record mem mi o).addr + u64 (mmap_record mem mi o).len) ∨
          PLATFORM_MAX_MEM_ADDR <
            u64 (u64 (mmap_record mem mi o).addr + u64 (mmap_record mem mi o).len)) →
        B.__PAGE_SIZE ∣ (_mb_init_mem B mem mi m0 g).2._libkvmplat_mem_end) ∧
      (B.__PAGE_SIZE ∣ (_mb_init_mem B mem mi m0 g).2._libkvmplat_mem_end →
        B.__PAGE_SIZE ∣ u64 B.__STACK_SIZE →
        B.__PAGE_SIZE ∣ (_mb_init_mem B mem mi m0 g).2._libkvmplat_stack_top) := by
  obtain ⟨o, ho, -, he⟩ := init_mem_returned B mem mi m0 g hs
  refine ⟨o, ho, ?_⟩
  rw [he]
  simp only [layout_of, hp]
  refine ⟨ALIGN_UP_dvd _ k hk, ?_, ?_⟩
  · intro hk30 h
    have hcap : 2 ^ k ∣ PLATFORM_MAX_MEM_ADDR := by
      have : PLATFORM_MAX_MEM_ADDR = 2 ^ 30 := by decide
      rw [this]
      exact Nat.pow_dvd_pow 2 hk30
    simp only [candidate_end]
    split
    · exact hcap
    · rcases h with h | h
      · exact h
      · omega
  · intro hm hst
    have hle := candidate_end_le (mmap_record mem mi o)
    have hu : u64 (candidate_end (mmap_record mem mi o)) =
        candidate_end (mmap_record mem mi o) := by
      simp only [u64, PLATFORM_MAX_MEM_ADDR] at *
      omega
    exact sub64_dvd _ _ _ (Nat.pow_dvd_pow 2 (by omega)) (by rw [hu]; exact hm) hst

/-- Witness of C10 (amended): 4 KiB pages, 126 MiB at `0x100000`, image end
`0x150000`; all three addresses are multiples of `0x1000`. -/
theorem init_mem_aligned_witness :
    (kvm_build 0x150000).__PAGE_SIZE = 2 ^ 12 ∧
    (_mb_init_mem (kvm_build 0x150000) mem_qemu (mi_map 0x9000 48) 0 g_null).1 =
      Outcome.returned ∧
    ∃ o, first_match mem_qemu (mi_map 0x9000 48) 0 = some o ∧
      (kvm_build 0x150000).__PAGE_SIZE ∣
        (_mb_init_mem (kvm_build 0x150000) mem_qemu (mi_map 0x9000 48) 0
          g_null).2._libkvmplat_heap_start ∧
      (12 ≤ 30 →
        ((kvm_build 0x150000).__PAGE_SIZE ∣
            u64 (u64 (mmap_record mem_qemu (mi_map 0x9000 48) o).addr +
              u64 (mmap_record mem_qemu (mi_map 0x9000 48) o).len) ∨
          PLATFORM_MAX_MEM_ADDR <
            u64 (u64 (mmap_record mem_qemu (mi_map 0x9000 48) o).addr +
              u64 (mmap_record mem_qemu (mi_map 0x9000 48) o).len)) →
        (kvm_build 0x150000).__PAGE_SIZE ∣
          (_mb_init_mem (kvm_build 0x150000) mem_qemu (mi_map 0x9000 48) 0
            g_null).2._libkvmplat_mem_end) ∧
      ((kvm_build 0x150000).__PAGE_SIZE ∣
          (_mb_init_mem (kvm_build 0x150000) mem_qemu (mi_map 0x9000 48) 0
            g_null).2._libkvmplat_mem_end →
        (kvm_build 0x150000).__PAGE_SIZE ∣ u64 (kvm_build 0x150000).__STACK_SIZE →
        (kvm_build 0x150000).__PAGE_SIZE ∣
          (_mb_init_mem (kvm_build 0x150000) mem_qemu (mi_map 0x9000 48) 0
            g_null).2._libkvmplat_stack_top) :=
  have hs : (_mb_init_mem (kvm_build 0x150000) mem_qemu (mi_map 0x9000 48) 0 g_null).1 =
      Outcome.returned := by
    rw [init_mem_of_first_match _ _ _ _ 24 _ first_match_mem_qemu]
    decide
  ⟨by decide, hs,
    init_mem_aligned (kvm_build 0x150000) mem_qemu (mi_map 0x9000 48) 0 g_null 12
      (by decide) (by decide) hs⟩

/-! ## Memory-map scan: heap start, walk, purity -/

/-- C11.  When `_mb_init_mem` succeeds and the page size is a power of two
`2 ^ k` with `k < 64`, `heap_start` is the least multiple of the page size that
is at least the image end `_end`: it is a multiple of the page size, `_end ≤
heap_start`, `heap_start - _end < __PAGE_SIZE`, no multiple of the page size
lies between them, and the sum `_end + __PAGE_SIZE - 1` of `ALIGN_UP` stays
below `2 ^ 64`, so that `heap_start` is the exact round-up. -/
theorem init_mem_heap_start (B : Build) (mem : Memory) (mi : multiboot_info) (m0 : Nat)
    (g : Globals) (k : Nat) (hk : k < 64) (hp : B.__PAGE_SIZE = 2 ^ k)
    (hs : (_mb_init_mem B mem mi m0 g).1 = Outcome.returned) :
    B.__PAGE_SIZE ∣ (_mb_init_mem B mem mi m0 g).2._libkvmplat_heap_start ∧
    u64 B._end ≤ (_mb_init_mem B mem mi m0 g).2._libkvmplat_heap_start ∧
    (_mb_init_mem B mem mi m0 g).2._libkvmplat_heap_start - u64 B._end < B.__PAGE_SIZE ∧
    (∀ m, B.__PAGE_SIZE ∣ m → u64 B._end ≤ m →
      (_mb_init_mem B mem mi m0 g).2._libkvmplat_heap_start ≤ m) ∧
    u64 B._end + B.__PAGE_SIZE - 1 < 2 ^ 64 ∧
    (_mb_init_mem B mem mi m0 g).2._libkvmplat_heap_start =
      (u64 B._end + B.__PAGE_SIZE - 1) / B.__PAGE_SIZE * B.__PAGE_SIZE := by
  obtain ⟨o, -, hc, he⟩ := init_mem_returned B mem mi m0 g hs
  have hle := candidate_end_le (mmap_record mem mi o)
  have hpos : 0 < 2 ^ k := Nat.pow_pos (by norm_num)
  have hpk : 2 ^ k ≤ 2 ^ 63 := Nat.pow_le_pow_right (by norm_num) (by omega)
  have hend : u64 B._end ≤ 2 ^ 30 := by
    simp only [PLATFORM_MAX_MEM_ADDR] at hle
    omega
  have huu : u64 (u64 B._end) = u64 B._end := by
    simp only [u64]
    omega
  have hx := ALIGN_UP_exact (u64 B._end) k hk (by rw [huu]; omega)
  rw [huu] at hx
  have hb := round_up_bounds (u64 B._end) (2 ^ k) hpos
  rw [he]
  simp only [layout_of, hp, hx]
  refine ⟨Dvd.intro_left _ rfl, hb.1, by omega, ?_, by omega, trivial⟩
  intro m hm hv
  exact round_up_least (u64 B._end) (2 ^ k) m hpos hm hv

/-- Witness of C11: 4 KiB pages and an image ending at `0x150123` give
`heap_start = 0x151000`. -/
theorem init_mem_heap_start_witness :
    (kvm_build 0x150123).__PAGE_SIZE = 2 ^ 12 ∧
    (_mb_init_mem (kvm_build 0x150123) mem_qemu (mi_map 0x9000 48) 0 g_null).1 =
      Outcome.returned ∧
    ((kvm_build 0x150123).__PAGE_SIZE ∣
      (_mb_init_mem (kvm_build 0x150123) mem_qemu (mi_map 0x9000 48) 0
        g_null).2._libkvmplat_heap_start ∧
    u64 (kvm_build 0x150123)._end ≤
      (_mb_init_mem (kvm_build 0x150123) mem_qemu (mi_map 0x9000 48) 0
        g_null).2._libkvmplat_heap_start ∧
    (_mb_init_mem (kvm_build 0x150123) mem_qemu (mi_map 0x9000 48) 0
        g_null).2._libkvmplat_heap_start - u64 (kvm_build 0x150123)._end <
      (kvm_build 0x150123).__PAGE_SIZE ∧
    (∀ m, (kvm_build 0x150123).__PAGE_SIZE ∣ m → u64 (kvm_build 0x150123)._end ≤ m →
      (_mb_init_mem (kvm_build 0x150123) mem_qemu (mi_map 0x9000 48) 0
        g_null).2._libkvmplat_heap_start ≤ m) ∧
    u64 (kvm_build 0x150123)._end + (kvm_build 0x150123).__PAGE_SIZE - 1 < 2 ^ 64 ∧
    (_mb_init_mem (kvm_build 0x150123) mem_qemu (mi_map 0x9000 48) 0
        g_null).2._libkvmplat_heap_start =
      (u64 (kvm_build 0x150123)._end + (kvm_build 0x150123).__PAGE_SIZE - 1) /
        (kvm_build 0x150123).__PAGE_SIZE * (kvm_build 0x150123).__PAGE_SIZE) ∧
    (_mb_init_mem (kvm_build 0x150123) mem_qemu (mi_map 0x9000 48) 0
      g_null).2._libkvmplat_heap_start = 0x151000 :=
  have h : _mb_init_mem (kvm_build 0x150123) mem_qemu (mi_map 0x9000 48) 0 g_null =
      (Outcome.returned, ⟨0x151000, 0x7FD0000, 0x7FE0000⟩) := by
    rw [init_mem_of_first_match _ _ _ _ 24 _ first_match_mem_qemu]
    decide
  have hs : (_mb_init_mem (kvm_build 0x150123) mem_qemu (mi_map 0x9000 48) 0 g_null).1 =
      Outcome.returned := by rw [h]
  ⟨by decide, hs,
    init_mem_heap_start (kvm_build 0x150123) mem_qemu (mi_map 0x9000 48) 0 g_null 12
      (by decide) (by decide) hs,
    by rw [h]⟩

/-- C12.  The header of the loop visits the offsets `0`, `s0 + 4`,
`s0 + 4 + s1 + 4`, ... (each visited record's own `size` plus four) while the
offset is below `mmap_length`; the body runs on these offsets up to and
including the first record that is Available with base `0x100000`; the outcome
and the layout are those derived from that record; and a memory that holds the
same records at the offsets the body ran on, whatever it holds behind the first
match, gives the same result. -/
theorem init_mem_first_match_only (B : Build) (mem mem' : Memory) (mi : multiboot_info)
    (m0 m0' : Nat) (g : Globals) (o : Nat)
    (hf : first_match mem mi 0 = some o)
    (hag : ∀ p ∈ mmap_trace mem mi 0,
      mem'.mmap_at (mmap_ptr mi p) = mem.mmap_at (mmap_ptr mi p)) :
    (∀ off, off < u32 mi.mmap_length →
      mmap_walk mem mi off =
        off :: mmap_walk mem mi (off + (u32 (mmap_record mem mi off).size + 4))) ∧
    (∀ off, ¬ off < u32 mi.mmap_length → mmap_walk mem mi off = []) ∧
    mmap_trace mem mi 0 =
      (mmap_walk mem mi 0).takeWhile (fun p => !mmap_match (mmap_record mem mi p)) ++ [o] ∧
    _mb_init_mem B mem mi m0 g =
      (if u64 B._end ≤ candidate_end (mmap_record mem mi o) then
        (Outcome.returned, layout_of B (mmap_record mem mi o))
      else (Outcome.assert_end_failed, g)) ∧
    _mb_init_mem B mem' mi m0' g = _mb_init_mem B mem mi m0 g := by
  obtain ⟨hf', hr'⟩ := first_match_congr_trace mem mem' mi 0 o hf hag
  refine ⟨mmap_walk_cons mem mi, mmap_walk_nil mem mi, ?_,
    init_mem_of_first_match B mem mi m0 o g hf, ?_⟩
  · rw [mmap_trace_eq, hf]
    rfl
  · rw [init_mem_of_first_match B mem' mi m0' o g hf',
      init_mem_of_first_match B mem mi m0 o g hf, hr']

/-- Witness of C12: two maps whose second record is the first match and whose
third record, also Available at `0x100000`, has length 16 MiB in one and 48 MiB
in the other; both scans give the layout of the second record. -/
theorem init_mem_first_match_only_witness :
    first_match mem_twice (mi_map 0x9000 72) 0 = some 24 ∧
    (∀ p ∈ mmap_trace mem_twice (mi_map 0x9000 72) 0,
      mem_twice_other.mmap_at (mmap_ptr (mi_map 0x9000 72) p) =
        mem_twice.mmap_at (mmap_ptr (mi_map 0x9000 72) p)) ∧
    ((∀ off, off < u32 (mi_map 0x9000 72).mmap_length →
      mmap_walk mem_twice (mi_map 0x9000 72) off =
        off :: mmap_walk mem_twice (mi_map 0x9000 72)
          (off + (u32 (mmap_record mem_twice (mi_map 0x9000 72) off).size + 4))) ∧
    (∀ off, ¬ off < u32 (mi_map 0x9000 72).mmap_length →
      mmap_walk mem_twice (mi_map 0x9000 72) off = []) ∧
    mmap_trace mem_twice (mi_map 0x9000 72) 0 =
      (mmap_walk mem_twice (mi_map 0x9000 72) 0).takeWhile
        (fun p => !mmap_match (mmap_record mem_twice (mi_map 0x9000 72) p)) ++ [24] ∧
    _mb_init_mem (kvm_build 0x150000) mem_twice (mi_map 0x9000 72) 0 g_null =
      (if u64 (kvm_build 0x150000)._end ≤
          candidate_end (mmap_record mem_twice (mi_map 0x9000 72) 24) then
        (Outcome.returned,
          layout_of (kvm_build 0x150000) (mmap_record mem_twice (mi_map 0x9000 72) 24))
      else (Outcome.assert_end_failed, g_null)) ∧
    _mb_init_mem (kvm_build 0x150000) mem_twice_other (mi_map 0x9000 72) 7 g_null =
      _mb_init_mem (kvm_build 0x150000) mem_twice (mi_map 0x9000 72) 0 g_null) ∧
    mmap_walk mem_twice (mi_map 0x9000 72) 0 = [0, 24, 48] ∧
    mmap_trace mem_twice (mi_map 0x9000 72) 0 = [0, 24] ∧
    _mb_init_mem (kvm_build 0x150000) mem_twice (mi_map 0x9000 72) 0 g_null =
      (Outcome.returned, ⟨0x150000, 0x7FD0000, 0x7FE0000⟩) :=
  have hw : mmap_walk mem_twice (mi_map 0x9000 72) 0 = [0, 24, 48] := by
    simp [mmap_walk, mem_twice, mem_three, mi_map, mmap_step, mmap_ptr, u32, u64]
  have ht : mmap_trace mem_twice (mi_map 0x9000 72) 0 = [0, 24] := by
    simp [mmap_trace, mem_twice, mem_three, mi_map, mmap_step, mmap_ptr, mmap_match, u32, u64,
      PLATFORM_MEM_START, MULTIBOOT_MEMORY_AVAILABLE]
  have hf : first_match mem_twice (mi_map 0x9000 72) 0 = some 24 := by
    rw [first_match, hw]
    decide
  have hag : ∀ p ∈ mmap_trace mem_twice (mi_map 0x9000 72) 0,
      mem_twice_other.mmap_at (mmap_ptr (mi_map 0x9000 72) p) =
        mem_twice.mmap_at (mmap_ptr (mi_map 0x9000 72) p) := by
    rw [ht]
    decide
  ⟨hf, hag,
    init_mem_first_match_only (kvm_build 0x150000) mem_twice mem_twice_other
      (mi_map 0x9000 72) 0 7 g_null 24 hf hag,
    hw, ht,
    by rw [init_mem_of_first_match _ _ _ _ 24 _ hf]; decide⟩

/-- C14.  When the scan succeeds, `_libkvmplat_entry` ends with the stack switch
`_libkvmplat_newstack (mem_end, _libkvmplat_entry2, 0)` followed by the
trampoline's call `ukplat_entry_argp (NULL, cmdline, 8192)`, where `cmdline` is
the buffer exactly as `_mb_get_cmdline` left it; no earlier event is a stack
switch or a call of the entry point.  The target `mem_end` is
`stack_top + __STACK_SIZE` (as a 64-bit sum, and as an exact sum when the stack
size is at most `mem_end`), and differs from `stack_top` when the stack size is
non-zero. -/
theorem entry_switches_stack (B : Build) (mem : Memory) (arg : Nat) (mi : multiboot_info)
    (m0 : Nat) (cmdline : Buffer) (g : Globals)
    (hs : (_mb_init_mem B mem mi m0 g).1 = Outcome.returned) :
    _libkvmplat_entry B mem arg mi m0 cmdline g =
      entry_preamble B mem arg mi cmdline ++
        [Event.printd "    heap start: %p\n"
            (some (_mb_init_mem B mem mi m0 g).2._libkvmplat_heap_start),
          Event.printd "     stack top: %p\n"
            (some (_mb_init_mem B mem mi m0 g).2._libkvmplat_stack_top),
          Event.printd "Switch from bootstrap stack to stack @%p\n"
            (some (_mb_init_mem B mem mi m0 g).2._libkvmplat_mem_end),
          Event.newstack (_mb_init_mem B mem mi m0 g).2._libkvmplat_mem_end
            Tramp._libkvmplat_entry2 0,
          Event.ukplat_entry_argp 0 (_mb_get_cmdline B mem mi cmdline MAX_CMDLINE_SIZE).1
            MAX_CMDLINE_SIZE] ∧
    (∀ e ∈ entry_preamble B mem arg mi cmdline,
      e.is_newstack = false ∧ e.is_ukplat_entry = false) ∧
    MAX_CMDLINE_SIZE = 8192 ∧
    u64 ((_mb_init_mem B mem mi m0 g).2._libkvmplat_stack_top + u64 B.__STACK_SIZE) =
      (_mb_init_mem B mem mi m0 g).2._libkvmplat_mem_end ∧
    (u64 B.__STACK_SIZE ≤ (_mb_init_mem B mem mi m0 g).2._libkvmplat_mem_end →
      (_mb_init_mem B mem mi m0 g).2._libkvmplat_stack_top + u64 B.__STACK_SIZE =
        (_mb_init_mem B mem mi m0 g).2._libkvmplat_mem_end) ∧
    (0 < u64 B.__STACK_SIZE →
      (_mb_init_mem B mem mi m0 g).2._libkvmplat_mem_end ≠
        (_mb_init_mem B mem mi m0 g).2._libkvmplat_stack_top) := by
  obtain ⟨o, -, -, he⟩ := init_mem_returned B mem mi m0 g hs
  have hle := candidate_end_le (mmap_record mem mi o)
  have hu : u64 (candidate_end (mmap_record mem mi o)) = candidate_end (mmap_record mem mi o) := by
    simp only [u64, PLATFORM_MAX_MEM_ADDR] at *
    omega
  have hent := entry_of_returned B mem arg mi m0 cmdline g _ he
  rw [he]
  simp only [layout_of] at hent ⊢
  rw [hu] at hent
  refine ⟨hent, entry_preamble_quiet B mem arg mi cmdline, rfl, ?_, ?_, ?_⟩
  · simp only [sub64, u64, PLATFORM_MAX_MEM_ADDR] at *
    omega
  · simp only [sub64, u64, PLATFORM_MAX_MEM_ADDR] at *
    omega
  · simp only [sub64, u64, PLATFORM_MAX_MEM_ADDR] at *
    omega

/-- Witness of C14: 126 MiB at `0x100000`, command line `boot=verbose`; the stack
switch targets `mem_end = 0x7FE0000`, not `stack_top = 0x7FD0000`. -/
theorem entry_switches_stack_witness :
    (_mb_init_mem (kvm_build 0x150000) mem_qemu (mi_map 0x9000 48) 0 g_null).1 =
      Outcome.returned ∧
    (_libkvmplat_entry (kvm_build 0x150000) mem_qemu 0x7000 (mi_map 0x9000 48) 0 buf_ff
        g_null =
      entry_preamble (kvm_build 0x150000) mem_qemu 0x7000 (mi_map 0x9000 48) buf_ff ++
        [Event.printd "    heap start: %p\n"
            (some (_mb_init_mem (kvm_build 0x150000) mem_qemu (mi_map 0x9000 48) 0
              g_null).2._libkvmplat_heap_start),
          Event.printd "     stack top: %p\n"
            (some (_mb_init_mem (kvm_build 0x150000) mem_qemu (mi_map 0x9000 48) 0
              g_null).2._libkvmplat_stack_top),
          Event.printd "Switch from bootstrap stack to stack @%p\n"
            (some (_mb_init_mem (kvm_build 0x150000) mem_qemu (mi_map 0x9000 48) 0
              g_null).2._libkvmplat_mem_end),
          Event.newstack (_mb_init_mem (kvm_build 0x150000) mem_qemu (mi_map 0x9000 48) 0
              g_null).2._libkvmplat_mem_end
            Tramp._libkvmplat_entry2 0,
          Event.ukplat_entry_argp 0
            (_mb_get_cmdline (kvm_build 0x150000) mem_qemu (mi_map 0x9000 48) buf_ff
              MAX_CMDLINE_SIZE).1
            MAX_CMDLINE_SIZE] ∧
    (∀ e ∈ entry_preamble (kvm_build 0x150000) mem_qemu 0x7000 (mi_map 0x9000 48) buf_ff,
      e.is_newstack = false ∧ e.is_ukplat_entry = false) ∧
    MAX_CMDLINE_SIZE = 8192 ∧
    u64 ((_mb_init_mem (kvm_build 0x150000) mem_qemu (mi_map 0x9000 48) 0
          g_null).2._libkvmplat_stack_top + u64 (kvm_build 0x150000).__STACK_SIZE) =
      (_mb_init_mem (kvm_build 0x150000) mem_qemu (mi_map 0x9000 48) 0
        g_null).2._libkvmplat_mem_end ∧
    (u64 (kvm_build 0x150000).__STACK_SIZE ≤
        (_mb_init_mem (kvm_build 0x150000) mem_qemu (mi_map 0x9000 48) 0
          g_null).2._libkvmplat_mem_end →
      (_mb_init_mem (kvm_build 0x150000) mem_qemu (mi_map 0x9000 48) 0
          g_null).2._libkvmplat_stack_top + u64 (kvm_build 0x150000).__STACK_SIZE =
        (_mb_init_mem (kvm_build 0x150000) mem_qemu (mi_map 0x9000 48) 0
          g_null).2._libkvmplat_mem_end) ∧
    (0 < u64 (kvm_build 0x150000).__STACK_SIZE →
      (_mb_init_mem (kvm_build 0x150000) mem_qemu (mi_map 0x9000 48) 0
          g_null).2._libkvmplat_mem_end ≠
        (_mb_init_mem (kvm_build 0x150000) mem_qemu (mi_map 0x9000 48) 0
          g_null).2._libkvmplat_stack_top)) ∧
    (_mb_init_mem (kvm_build 0x150000) mem_qemu (mi_map 0x9000 48) 0 g_null).2 =
      ⟨0x150000, 0x7FD0000, 0x7FE0000⟩ :=
  have h : _mb_init_mem (kvm_build 0x150000) mem_qemu (mi_map 0x9000 48) 0 g_null =
      (Outcome.returned, ⟨0x150000, 0x7FD0000, 0x7FE0000⟩) := by
    rw [init_mem_of_first_match _ _ _ _ 24 _ first_match_mem_qemu]
    decide
  have hs : (_mb_init_mem (kvm_build 0x150000) mem_qemu (mi_map 0x9000 48) 0 g_null).1 =
      Outcome.returned := by rw [h]
  ⟨hs,
    entry_switches_stack (kvm_build 0x150000) mem_qemu 0x7000 (mi_map 0x9000 48) 0 buf_ff
      g_null hs,
    by rw [h]⟩

/-- C15.  When the scan fails (no matching record, or the matched region ends
below the image end), `_libkvmplat_entry` halts at the failed assertion: its
events are those up to the command-line extraction followed by the halt, none
of them is the stack switch or the call of the platform-independent entry
point, and the layout globals are as they were at entry. -/
theorem entry_halts (B : Build) (mem : Memory) (arg : Nat) (mi : multiboot_info)
    (m0 : Nat) (cmdline : Buffer) (g : Globals)
    (hs : (_mb_init_mem B mem mi m0 g).1 ≠ Outcome.returned) :
    _libkvmplat_entry B mem arg mi m0 cmdline g =
      entry_preamble B mem arg mi cmdline ++ [Event.halt (_mb_init_mem B mem mi m0 g).1] ∧
    (∀ e ∈ _libkvmplat_entry B mem arg mi m0 cmdline g,
      e.is_newstack = false ∧ e.is_ukplat_entry = false) ∧
    (_mb_init_mem B mem mi m0 g).2 = g ∧
    (((_mb_init_mem B mem mi m0 g).1 = Outcome.assert_offset_failed ∧
        first_match mem mi 0 = none) ∨
      ((_mb_init_mem B mem mi m0 g).1 = Outcome.assert_end_failed ∧
        ∃ o, first_match mem mi 0 = some o ∧
          candidate_end (mmap_record mem mi o) < u64 B._end)) := by
  have hent : _libkvmplat_entry B mem arg mi m0 cmdline g =
      entry_preamble B mem arg mi cmdline ++ [Event.halt (_mb_init_mem B mem mi m0 g).1] :=
    entry_of_failed B mem arg mi m0 cmdline g _ _ rfl hs
  refine ⟨hent, ?_, ?_, ?_⟩
  · intro e he
    rw [hent, List.mem_append] at he
    rcases he with he | he
    · exact entry_preamble_quiet B mem arg mi cmdline e he
    · rw [List.mem_singleton] at he
      subst he
      exact ⟨rfl, rfl⟩
  · rcases init_mem_failed B mem mi m0 g hs with ⟨h, -⟩ | ⟨h, -⟩ <;> rw [h]
  · rcases init_mem_failed B mem mi m0 g hs with ⟨h, hf⟩ | ⟨h, hf⟩
    · exact Or.inl ⟨by rw [h], hf⟩
    · exact Or.inr ⟨by rw [h], hf⟩

/-- Witness of C15: a map with no Available record at `0x100000`; the entry
sequence ends in the halt of the first assertion. -/
theorem entry_halts_witness :
    (_mb_init_mem (kvm_build 0x150000) mem_reserved (mi_map 0x9000 48) 0 g_null).1 ≠
      Outcome.returned ∧
    (_libkvmplat_entry (kvm_build 0x150000) mem_reserved 0x7000 (mi_map 0x9000 48) 0
        buf_ff g_null =
      entry_preamble (kvm_build 0x150000) mem_reserved 0x7000 (mi_map 0x9000 48) buf_ff ++
        [Event.halt (_mb_init_mem (kvm_build 0x150000) mem_reserved (mi_map 0x9000 48) 0
          g_null).1] ∧
    (∀ e ∈ _libkvmplat_entry (kvm_build 0x150000) mem_reserved 0x7000 (mi_map 0x9000 48) 0
        buf_ff g_null,
      e.is_newstack = false ∧ e.is_ukplat_entry = false) ∧
    (_mb_init_mem (kvm_build 0x150000) mem_reserved (mi_map 0x9000 48) 0 g_null).2 =
      g_null ∧
    (((_mb_init_mem (kvm_build 0x150000) mem_reserved (mi_map 0x9000 48) 0 g_null).1 =
          Outcome.assert_offset_failed ∧
        first_match mem_reserved (mi_map 0x9000 48) 0 = none) ∨
      ((_mb_init_mem (kvm_build 0x150000) mem_reserved (mi_map 0x9000 48) 0 g_null).1 =
          Outcome.assert_end_failed ∧
        ∃ o, first_match mem_reserved (mi_map 0x9000 48) 0 = some o ∧
          candidate_end (mmap_record mem_reserved (mi_map 0x9000 48) o) <
            u64 (kvm_build 0x150000)._end))) ∧
    _mb_init_mem (kvm_build 0x150000) mem_reserved (mi_map 0x9000 48) 0 g_null =
      (Outcome.assert_offset_failed, g_null) :=
  have h : _mb_init_mem (kvm_build 0x150000) mem_reserved (mi_map 0x9000 48) 0 g_null =
      (Outcome.assert_offset_failed, g_null) :=
    init_mem_of_no_match _ _ _ _ _ (by rw [walk_mem_reserved]; decide)
  have hs : (_mb_init_mem (kvm_build 0x150000) mem_reserved (mi_map 0x9000 48) 0
      g_null).1 ≠ Outcome.returned := by
    rw [h]
    exact fun hc => Outcome.noConfusion hc
  ⟨hs,
    entry_halts (kvm_build 0x150000) mem_reserved 0x7000 (mi_map 0x9000 48) 0 buf_ff
      g_null hs,
    h⟩

/-- C16.  The record walk of `_mb_init_mem` terminates for every memory map and
every `mmap_length`: a step from an offset below `2 ^ 32` adds the record's
32-bit `size` plus four without wrapping, so it advances by at least four (also
for `size = 0` and `size = 0xFFFFFFFF`); the body runs at most
`ceil (mmap_length / 4)` times; and the loop cut off after that many runs of
its body has already produced the loop's result. -/
theorem mmap_loop_terminates (mem : Memory) (mi : multiboot_info) (m0 : Nat) :
    (∀ (r : multiboot_mmap_entry) (offset : Nat), offset < 2 ^ 32 →
      mmap_step r offset = offset + (u32 r.size + 4) ∧ offset + 4 ≤ mmap_step r offset) ∧
    (∀ offset, offset < 2 ^ 32 →
      mmap_step ⟨0, 0, 0, 0⟩ offset = offset + 4 ∧
      mmap_step ⟨0xFFFFFFFF, 0, 0, 0⟩ offset = offset + 0x100000003) ∧
    (mmap_trace mem mi 0).length ≤ (u32 mi.mmap_length + 3) / 4 ∧
    (mmap_walk mem mi 0).length ≤ (u32 mi.mmap_length + 3) / 4 ∧
    mmap_loop_bounded mem mi ((u32 mi.mmap_length + 3) / 4) 0 m0 =
      some (mmap_loop mem mi 0 m0) := by
  refine ⟨?_, ?_, ?_, ?_, ?_⟩
  · intro r offset h
    have := mmap_step_exact r offset h
    omega
  · intro offset h
    rw [mmap_step_exact _ _ h, mmap_step_exact _ _ h]
    exact ⟨by simp [u32], by simp [u32]⟩
  · have := mmap_trace_length_le mem mi 0
    simpa using this
  · have := mmap_walk_length_le mem mi 0
    simpa using this
  · exact mmap_loop_bounded_eq mem mi _ 0 m0 (by simp)

/-! ## Frame of the command-line extraction -/

/-- C17.  With the command-line flag set, a capacity `1 ≤ maxlen < 2 ^ 64` and a
source string of length `L`, `_mb_get_cmdline` stores only to the indices
`0 .. min (L, maxlen - 1)`: every index it stores to is at most
`min (L, maxlen - 1)` and below `maxlen`, every index it does not store to keeps
its byte, and so every byte at an index above `min (L, maxlen - 1)` keeps its
previous value. -/
theorem cmdline_frame (B : Build) (mem : Memory) (mi : multiboot_info)
    (cmdline : Buffer) (maxlen : Nat) (hpos : 1 ≤ maxlen) (hmax : maxlen < 2 ^ 64)
    (hflag : u32 mi.flags &&& B.MULTIBOOT_INFO_CMDLINE ≠ 0) :
    (∀ i, cmdline_written B mem mi maxlen i = true →
      i ≤ min (strlen (cmdline_src mem mi)) (maxlen - 1) ∧ i < maxlen) ∧
    (∀ i, cmdline_written B mem mi maxlen i = false →
      (_mb_get_cmdline B mem mi cmdline maxlen).1 i = cmdline i) ∧
    (∀ i, min (strlen (cmdline_src mem mi)) (maxlen - 1) < i →
      (_mb_get_cmdline B mem mi cmdline maxlen).1 i = cmdline i) := by
  have h1 : sub64 maxlen 1 = maxlen - 1 := sub64_one maxlen hpos hmax
  have hw : ∀ i, cmdline_written B mem mi maxlen i = true →
      i ≤ min (strlen (cmdline_src mem mi)) (maxlen - 1) ∧ i < maxlen := by
    intro i hi
    simp only [cmdline_written, ne_eq, hflag, not_false_eq_true, if_true, h1,
      Bool.or_eq_true, decide_eq_true_eq] at hi
    simp only [cmdline_src]
    by_cases ht : strlen (mem.string_at (u64 (u32 mi.cmdline))) ≥ maxlen
    · simp only [ht, if_true, le_refl] at hi
      omega
    · simp only [ht, if_false] at hi
      have h3 : strlen (mem.string_at (u64 (u32 mi.cmdline))) ≤ maxlen - 1 := by omega
      simp only [h3, if_true] at hi
      omega
  refine ⟨hw, fun i => cmdline_unwritten B mem mi cmdline maxlen i, ?_⟩
  intro i hi
  apply cmdline_unwritten
  cases hc : cmdline_written B mem mi maxlen i with
  | false => rfl
  | true =>
    have := (hw i hc).1
    omega

/-- Witness of C17: source `boot=verbose` (12 bytes), capacity 8192, buffer
full of `0xFF`: index 13 keeps `0xFF`. -/
theorem cmdline_frame_witness :
    ((∀ i, cmdline_written (kvm_build 0x150000) (mem_cmdline 0x8000 boot_verbose)
        (mi_cmdline 0x44 0x8000) 8192 i = true →
      i ≤ min (strlen (cmdline_src (mem_cmdline 0x8000 boot_verbose)
        (mi_cmdline 0x44 0x8000))) (8192 - 1) ∧ i < 8192) ∧
    (∀ i, cmdline_written (kvm_build 0x150000) (mem_cmdline 0x8000 boot_verbose)
        (mi_cmdline 0x44 0x8000) 8192 i = false →
      (_mb_get_cmdline (kvm_build 0x150000) (mem_cmdline 0x8000 boot_verbose)
        (mi_cmdline 0x44 0x8000) buf_ff 8192).1 i = buf_ff i) ∧
    (∀ i, min (strlen (cmdline_src (mem_cmdline 0x8000 boot_verbose)
        (mi_cmdline 0x44 0x8000))) (8192 - 1) < i →
      (_mb_get_cmdline (kvm_build 0x150000) (mem_cmdline 0x8000 boot_verbose)
        (mi_cmdline 0x44 0x8000) buf_ff 8192).1 i = buf_ff i)) ∧
    (_mb_get_cmdline (kvm_build 0x150000) (mem_cmdline 0x8000 boot_verbose)
      (mi_cmdline 0x44 0x8000) buf_ff 8192).1 12 = 0 ∧
    (_mb_get_cmdline (kvm_build 0x150000) (mem_cmdline 0x8000 boot_verbose)
      (mi_cmdline 0x44 0x8000) buf_ff 8192).1 13 = 0xFF :=
  ⟨cmdline_frame (kvm_build 0x150000) (mem_cmdline 0x8000 boot_verbose)
      (mi_cmdline 0x44 0x8000) buf_ff 8192 (by decide) (by decide) (by decide),
    by decide, by decide⟩

end KvmSetup
